import Mathlib

/-!
Verification of the MirrorGate enforcement pipeline against its
natural-language specification.

The Python sources are shallowly embedded:

* `src/rules.py`   — content rule checker (`check_content`) with its regex
  families compiled to a small executable pattern matcher over `List Char`
  (ASCII word/whitespace classes; the repository's patterns and the inputs
  of the specification are ASCII).
* `src/crypto.py`  — decision records, hash chaining and `verify_chain`.
  SHA-256 and Ed25519 are abstracted as function parameters `H`/`Sig`;
  all chain bookkeeping (canonical serialization, GENESIS, chain-state
  threading) is modelled concretely.
* `src/gateway.py` — staging gateway over an explicit filesystem model
  `FS := String → Option String`.
* `src/gates/__init__.py`, `gate0_transport.py`, `gate5_intent.py`,
  `src/interceptor.py` — gate chain orchestrator, transport gate state
  machine, intent classifier and file interceptor.

Wall-clock timing fields (`processing_time_ms`, `total_time_ms`) are
modelled as 0; real time enters `Gate0Transport` only through the explicit
`now` argument.
-/

namespace MirrorGate

/-! ### Character classes (ASCII approximations of Python `\w` / `\s`) -/

def wordChar (c : Char) : Bool := c.isAlphanum || c = '_'

def wsChar (c : Char) : Bool :=
  c = ' ' || c = '\t' || c = '\n' || c = '\r' || c = '\x0b' || c = '\x0c'

/-! ### A tiny pattern matcher

The regexes of `rules.py` all have the shape
`\b lit (\s+ lit | \s+ \w+)* \b` after expanding alternations, except the
first ownership pattern which contains `.*` and is modelled separately.
A pattern is a list of pieces; matching is anchored with a word boundary
before the first piece and after the last. -/

inductive Piece where
  | lit : List Char → Piece
  | wsp : Piece
  | wcp : Piece
  deriving DecidableEq, Repr

def stripLit : List Char → List Char → Option (List Char)
  | [], s => some s
  | _ :: _, [] => none
  | a :: l, c :: s => if c = a then stripLit l s else none

/-- Trailing `\b`: the remaining input starts with a non-word char or is empty. -/
def boundaryEnd : List Char → Bool
  | [] => true
  | c :: _ => !wordChar c

def matchPieces : List Piece → List Char → Bool
  | [], s => boundaryEnd s
  | .lit l :: ps, s =>
    match stripLit l s with
    | some r => matchPieces ps r
    | none => false
  | .wsp :: ps, s =>
    match s with
    | [] => false
    | c :: rest => if wsChar c then matchPieces ps (rest.dropWhile wsChar) else false
  | .wcp :: ps, s =>
    match s with
    | [] => false
    | c :: rest => if wordChar c then matchPieces ps (rest.dropWhile wordChar) else false

/-- Scan every position of `s`; `atB` records whether the previous character
(if any) was a non-word character, i.e. whether a `\b` holds here. -/
def searchAt (pat : List Piece) : List Char → Bool → Bool
  | [], atB => atB && matchPieces pat []
  | c :: rest, atB => (atB && matchPieces pat (c :: rest)) || searchAt pat rest (!wordChar c)

def litP (s : String) : Piece := .lit s.toList

/-- Expand the product of two alternation groups separated by `\s+`. -/
def pairPats (ws1 ws2 : List String) : List (List Piece) :=
  ws1.flatMap (fun a => ws2.map (fun b => [litP a, Piece.wsp, litP b]))

/-! ### `rules.py` — patterns and `check_content` -/

def VIOLATION_HALLUCINATED_FACT : String := "HALLUCINATED_FACT"
def VIOLATION_FIRST_PERSON_AUTHORITY : String := "FIRST_PERSON_AUTHORITY"
def VIOLATION_UNAUTHORIZED_MEMORY : String := "UNAUTHORIZED_MEMORY_WRITE"
def VIOLATION_OWNERSHIP_CLAIM : String := "OWNERSHIP_CLAIM"
def VIOLATION_MEDICAL_LEGAL : String := "MEDICAL_LEGAL_ASSERTION"

def APPROVAL_MARKER : String := "<!-- APPROVED_WRITE -->"

/-- `FIRST_PERSON_PATTERNS` with `(?:have )?` and case folding expanded. -/
def FIRST_PERSON_PATTERNS : List (List Piece) :=
  [[litP "i decided"], [litP "i have decided"],
   [litP "i verified"], [litP "i have verified"],
   [litP "i confirmed"], [litP "i have confirmed"],
   [litP "i know for certain"],
   [litP "i determined"], [litP "i have determined"],
   [litP "i am certain"]]

def HALLUCINATION_PATTERNS : List (List Piece) :=
  pairPats ["paul", "user", "client"] ["confirmed", "said", "stated", "verified", "agreed"]
    ++ [[litP "the deal was signed"], [litP "studies prove"], [litP "research shows"],
        [litP "it has been confirmed"], [litP "according to sources"]]

/-- Second ownership pattern `\b(signed|executed)\s+(contract|agreement|deal)\b`. -/
def OWNERSHIP_PATTERNS_B : List (List Piece) :=
  pairPats ["signed", "executed"] ["contract", "agreement", "deal"]

def MEDICAL_LEGAL_PATTERNS : List (List Piece) :=
  [[litP "you should take", Piece.wsp, Piece.wcp],
   [litP "you should stop taking", Piece.wsp, Piece.wcp]]
    ++ [[litP "diagnosed with"], [litP "diagnosis is"]]
    ++ (["obligated", "required", "bound"].map (fun w => [litP ("legally " ++ w)]))
    ++ [[litP "this constitutes legal advice"], [litP "this constitutes medical advice"]]

def OWNERSHIP_W1 : List String := ["acquired", "purchased", "bought", "owns"]
def OWNERSHIP_W2 : List String := ["company", "business", "shares"]

/-- Scan for the second ownership group; `.*` does not cross a newline. -/
def ownSecondScan : List Char → Bool → Bool
  | [], _ => false
  | c :: rest, atB =>
    (atB && OWNERSHIP_W2.any (fun w =>
      match stripLit w.toList (c :: rest) with
      | some r => boundaryEnd r
      | none => false))
    || (decide (c ≠ '\n') && ownSecondScan rest (!wordChar c))

/-- First ownership pattern
`\b(acquired|purchased|bought|owns)\b.*\b(company|business|shares)\b`. -/
def ownFirstScan : List Char → Bool → Bool
  | [], _ => false
  | c :: rest, atB =>
    (atB && OWNERSHIP_W1.any (fun w =>
      match stripLit w.toList (c :: rest) with
      | some r =>
        (match r with
         | [] => false
         | d :: _ => !wordChar d) && ownSecondScan r false
      | none => false))
    || ownFirstScan rest (!wordChar c)

def anyPatternMatches (pats : List (List Piece)) (cl : List Char) : Bool :=
  pats.any (fun p => searchAt p cl true)

def toLowerList (s : String) : List Char := s.toList.map Char.toLower

def firstPersonMatch (cl : List Char) : Bool := anyPatternMatches FIRST_PERSON_PATTERNS cl

def hallucinationMatch (cl : List Char) : Bool := anyPatternMatches HALLUCINATION_PATTERNS cl

def ownershipMatch (cl : List Char) : Bool :=
  ownFirstScan cl true || anyPatternMatches OWNERSHIP_PATTERNS_B cl

def medicalLegalMatch (cl : List Char) : Bool := anyPatternMatches MEDICAL_LEGAL_PATTERNS cl

def listInfix (n : List Char) : List Char → Bool
  | [] => n.isEmpty
  | c :: rest => n.isPrefixOf (c :: rest) || listInfix n rest

/-- Python `needle in haystack` substring test (character-level). -/
def isSubstr (needle hay : String) : Bool := listInfix needle.toList hay.toList

/-- `is_memory_file = any(x in resource_path for x in [...])`. -/
def isMemoryFile (resource_path : String) : Bool :=
  ["memory.json", "state.json", "handoff.json"].any (fun x => isSubstr x resource_path)

/-- `check_content` from `src/rules.py`: returns `(action, violation_code)`. -/
def check_content (content resource_path : String) : String × Option String :=
  let cl := toLowerList content
  if isMemoryFile resource_path && !isSubstr APPROVAL_MARKER content then
    ("BLOCK", some VIOLATION_UNAUTHORIZED_MEMORY)
  else if firstPersonMatch cl then
    ("BLOCK", some VIOLATION_FIRST_PERSON_AUTHORITY)
  else if hallucinationMatch cl then
    ("BLOCK", some VIOLATION_HALLUCINATED_FACT)
  else if ownershipMatch cl then
    ("BLOCK", some VIOLATION_OWNERSHIP_CLAIM)
  else if medicalLegalMatch cl then
    ("BLOCK", some VIOLATION_MEDICAL_LEGAL)
  else
    ("ALLOW", none)

/-! Specification-side view of `check_content` for the refinement claim C5:
the ordered list of rule families, first match wins. -/

/-- Modelled from the spec: the five rule families in their stated order. -/
def ruleFamiliesSpec : List ((String → String → Bool) × String) :=
  [(fun content path => isMemoryFile path && !isSubstr APPROVAL_MARKER content,
    VIOLATION_UNAUTHORIZED_MEMORY),
   (fun content _ => firstPersonMatch (toLowerList content), VIOLATION_FIRST_PERSON_AUTHORITY),
   (fun content _ => hallucinationMatch (toLowerList content), VIOLATION_HALLUCINATED_FACT),
   (fun content _ => ownershipMatch (toLowerList content), VIOLATION_OWNERSHIP_CLAIM),
   (fun content _ => medicalLegalMatch (toLowerList content), VIOLATION_MEDICAL_LEGAL)]

/-- Modelled from the spec: return BLOCK with the code of the first family
that matches, else `(ALLOW, None)`. -/
def firstMatchDecision (content path : String) : String × Option String :=
  match ruleFamiliesSpec.find? (fun f => f.1 content path) with
  | some f => ("BLOCK", some f.2)
  | none => ("ALLOW", none)

/-! ### `crypto.py` — decision records, hash chaining, `verify_chain`

SHA-256 and Ed25519 signing are abstracted as parameters
`H : String → String` (hexdigest of the input string) and
`Sig : String → String` (base64 signature of the chain hash): the chain
logic never inspects their outputs beyond equality.  Nondeterministic
inputs of `generate_decision_record` (uuid7 event id, wall-clock
timestamp, policy hash, rules version read from disk) are passed in
explicitly through `DecisionInput`. -/

def MIRRORGATE_VERSION : String := "2.0"

/-- The eleven fields of a decision record other than `chain_hash` and
`signature` (the order here is irrelevant; serialization fixes it). -/
structure RecordBase where
  event_id : String
  timestamp : String
  actor : String
  action : String
  resource : String
  violation_code : Option String
  hash_before : String
  hash_after : String
  policy_hash : String
  rules_version : String
  mirror_gate_version : String
  deriving DecidableEq, Repr

/-- JSON string escaping as used by `json.dumps` (quote and backslash;
the records produced by the gateway contain no control characters). -/
def jsonEscape (s : String) : String :=
  String.mk (s.toList.flatMap (fun c =>
    if c = '\\' then ['\\', '\\'] else if c = '"' then ['\\', '"'] else [c]))

def jsonStr (s : String) : String := "\"" ++ jsonEscape s ++ "\""

def jsonNullable : Option String → String
  | some s => jsonStr s
  | none => "null"

def jsonKV (k v : String) : String := jsonStr k ++ ": " ++ v

/-- `json.dumps(record, sort_keys=True)` over the eleven base fields —
the byte string whose hash (concatenated with the previous chain hash)
forms `chain_hash`. -/
def serializeRecord (r : RecordBase) : String :=
  "\x7b" ++ jsonKV "action" (jsonStr r.action)
    ++ ", " ++ jsonKV "actor" (jsonStr r.actor)
    ++ ", " ++ jsonKV "event_id" (jsonStr r.event_id)
    ++ ", " ++ jsonKV "hash_after" (jsonStr r.hash_after)
    ++ ", " ++ jsonKV "hash_before" (jsonStr r.hash_before)
    ++ ", " ++ jsonKV "mirror_gate_version" (jsonStr r.mirror_gate_version)
    ++ ", " ++ jsonKV "policy_hash" (jsonStr r.policy_hash)
    ++ ", " ++ jsonKV "resource" (jsonStr r.resource)
    ++ ", " ++ jsonKV "rules_version" (jsonStr r.rules_version)
    ++ ", " ++ jsonKV "timestamp" (jsonStr r.timestamp)
    ++ ", " ++ jsonKV "violation_code" (jsonNullable r.violation_code)
    ++ "\x7d"

/-- A parsed line of the audit log: the base fields plus the popped
`chain_hash` and `signature` values (`none` models a missing key, as for
unsigned legacy records). -/
structure LogEntry where
  base : RecordBase
  chain_hash : Option String
  signature : Option String
  deriving DecidableEq, Repr

/-- A physical log line: `none` models a line that fails `json.loads`. -/
abbrev LogLine := Option LogEntry

/-- `json.dumps(record)` in insertion order of `generate_decision_record`,
as written by `append_to_audit_log` (for fully signed entries). -/
def serializeEntry (e : LogEntry) : String :=
  "\x7b" ++ jsonKV "event_id" (jsonStr e.base.event_id)
    ++ ", " ++ jsonKV "timestamp" (jsonStr e.base.timestamp)
    ++ ", " ++ jsonKV "actor" (jsonStr e.base.actor)
    ++ ", " ++ jsonKV "action" (jsonStr e.base.action)
    ++ ", " ++ jsonKV "resource" (jsonStr e.base.resource)
    ++ ", " ++ jsonKV "violation_code" (jsonNullable e.base.violation_code)
    ++ ", " ++ jsonKV "hash_before" (jsonStr e.base.hash_before)
    ++ ", " ++ jsonKV "hash_after" (jsonStr e.base.hash_after)
    ++ ", " ++ jsonKV "policy_hash" (jsonStr e.base.policy_hash)
    ++ ", " ++ jsonKV "rules_version" (jsonStr e.base.rules_version)
    ++ ", " ++ jsonKV "mirror_gate_version" (jsonStr e.base.mirror_gate_version)
    ++ ", " ++ jsonKV "chain_hash" (jsonNullable e.chain_hash)
    ++ ", " ++ jsonKV "signature" (jsonNullable e.signature)
    ++ "\x7d"

/-- The inputs `generate_decision_record` receives from its caller or from
the environment (uuid7, clock, policy files). -/
structure DecisionInput where
  eventId : String
  timestamp : String
  policyHash : String
  rulesVersion : String
  action : String
  resource : String
  violation_code : Option String
  hash_before : String
  hash_after : String
  actor : String
  deriving DecidableEq, Repr

/-- Chain state: contents of `chain_state.json` (`none` = file absent,
read as `GENESIS` by `get_previous_hash`). -/
abbrev ChainState := Option String

def recordOfInput (i : DecisionInput) : RecordBase :=
  { event_id := i.eventId, timestamp := i.timestamp, actor := i.actor,
    action := i.action, resource := i.resource,
    violation_code := i.violation_code, hash_before := i.hash_before,
    hash_after := i.hash_after, policy_hash := i.policyHash,
    rules_version := i.rulesVersion, mirror_gate_version := MIRRORGATE_VERSION }

/-- `generate_decision_record` from `src/crypto.py`: chain the record to the
previous hash, sign the chain hash, and update the persisted chain state. -/
def generate_decision_record (H Sig : String → String) (st : ChainState)
    (i : DecisionInput) : LogEntry × ChainState :=
  let prev := st.getD "GENESIS"
  let r := recordOfInput i
  let ch := H (serializeRecord r ++ prev)
  ({ base := r, chain_hash := some ch, signature := some (Sig ch) }, some ch)

/-- Generate and append each input in turn (`generate_decision_record`
followed by `append_to_audit_log`), returning the produced log lines and
the final chain state. -/
def appendAll (H Sig : String → String) : List DecisionInput → ChainState →
    List LogLine × ChainState
  | [], st => ([], st)
  | i :: rest, st =>
    let (e, st') := generate_decision_record H Sig st i
    let (l, st'') := appendAll H Sig rest st'
    (some e :: l, st'')

/-- The verification loop of `verify_chain`, carrying the previous hash and
the 1-based line number. -/
def verifyChainFrom (H : String → String) : String → Nat → List LogLine →
    Bool × Option String
  | _, _, [] => (true, none)
  | _, n, none :: _ => (false, some ("Invalid JSON at line " ++ toString n))
  | prev, n, some e :: rest =>
    let computed := H (serializeRecord e.base ++ prev)
    if e.chain_hash = some computed then verifyChainFrom H computed (n + 1) rest
    else (false, some ("Chain broken at line " ++ toString n ++ ": hash mismatch"))

/-- `verify_chain` from `src/crypto.py`: replay the log from `GENESIS`,
recomputing each chain hash; the stored signature is popped and discarded.
An absent audit log is the empty list. -/
def verify_chain (H : String → String) (log : List LogLine) : Bool × Option String :=
  verifyChainFrom H "GENESIS" 1 log

/-- Replace an entry's stored signature (used to state that `verify_chain`
never reads it). -/
def setSignature (sig : Option String) : LogLine → LogLine
  | none => none
  | some e => some { e with signature := sig }

/-! ### `gateway.py` — staging gateway over a filesystem model

The filesystem is a flat map from path strings to file contents;
directory creation (`mkdir`) has no observable effect in this model and
local file I/O is assumed to succeed.  `hashlib.md5(...).hexdigest()[:8]`
is abstracted as a parameter `Hmd5 : String → String` (its hex output
contains no `/`, which theorems take as a hypothesis). -/

def FS := String → Option String

def fsWrite (p c : String) (fs : FS) : FS := fun q => if q = p then some c else fs q

def fsDelete (p : String) (fs : FS) : FS := fun q => if q = p then none else fs q

def fsEmpty : FS := fun _ => none

/-- `os.path.basename`: the suffix after the last `/`. -/
def basenameList (l : List Char) : List Char :=
  ((l.reverse.takeWhile (fun c => c ≠ '/'))).reverse

def basename (p : String) : String := String.mk (basenameList p.toList)

def STAGING_DIR : String := "/home/user/.mirrorgate/staging"

/-- `get_staging_path`: staging-directory path derived from a hash of the
target path plus the target's base name. -/
def get_staging_path (Hmd5 : String → String) (target_path : String) : String :=
  STAGING_DIR ++ "/" ++ Hmd5 target_path ++ "_" ++ basename target_path

/-- `compute_file_hash`: SHA-256 of the file contents, or the sentinel. -/
def compute_file_hash (H : String → String) (fs : FS) (path : String) : String :=
  match fs path with
  | some c => H c
  | none => "FILE_NOT_FOUND"

/-- Combined state threaded through the gateway: the filesystem, the
persisted chain state and the audit log. -/
structure GWState where
  fs : FS
  chain : ChainState
  log : List LogLine

/-- Environment-supplied inputs of one gateway decision (uuid7 event id,
timestamp, policy hash and rules version). -/
structure GWMeta where
  eventId : String
  timestamp : String
  policyHash : String
  rulesVersion : String
  deriving DecidableEq, Repr

def GWMeta.toInput (m : GWMeta) (action resource : String)
    (violation_code : Option String) (hash_before hash_after : String) : DecisionInput :=
  { eventId := m.eventId, timestamp := m.timestamp, policyHash := m.policyHash,
    rulesVersion := m.rulesVersion, action := action, resource := resource,
    violation_code := violation_code, hash_before := hash_before,
    hash_after := hash_after, actor := "agent" }

/-- `stage_write`: write the candidate content to the staging path. -/
def stage_write (Hmd5 : String → String) (st : GWState) (content target_path : String) :
    (Bool × String × Option String) × GWState :=
  let staging_path := get_staging_path Hmd5 target_path
  ((true, "Staged successfully", some staging_path),
   { st with fs := fsWrite staging_path content st.fs })

/-- `validate_and_commit` from `src/gateway.py`. -/
def validate_and_commit (H Sig : String → String) (m : GWMeta) (st : GWState)
    (staging_path target_path : String) : (Bool × String) × GWState :=
  match st.fs staging_path with
  | none => ((false, "Staging file not found"), st)
  | some content =>
    let hash_staged := compute_file_hash H st.fs staging_path
    let hash_before := compute_file_hash H st.fs target_path
    let (action, violation_code) := check_content content target_path
    if action = "BLOCK" then
      let (e, cs) := generate_decision_record H Sig st.chain
        (m.toInput "BLOCK" target_path violation_code hash_before hash_staged)
      ((false, "BLOCKED: " ++ violation_code.getD "None"),
       { fs := fsDelete staging_path st.fs, chain := cs, log := st.log ++ [some e] })
    else
      let fs2 := fsWrite target_path content (fsDelete staging_path st.fs)
      let hash_after := compute_file_hash H fs2 target_path
      let (e, cs) := generate_decision_record H Sig st.chain
        (m.toInput "ALLOW" target_path none hash_before hash_after)
      ((true, "ALLOWED: Write committed"),
       { fs := fs2, chain := cs, log := st.log ++ [some e] })

/-- `gateway_write`: stage, then validate and commit. -/
def gateway_write (H Hmd5 Sig : String → String) (m : GWMeta) (st : GWState)
    (content target_path : String) : (Bool × String) × GWState :=
  let (staged, st1) := stage_write Hmd5 st content target_path
  match staged.2.2 with
  | none => ((false, staged.2.1), st1)
  | some staging_path => validate_and_commit H Sig m st1 staging_path target_path

/-! ### `gates/__init__.py` — gate chain data model and orchestrator -/

inductive GateResult where
  | PASS | BLOCKED | RATE_LIMITED | REPLAY_REJECTED | SESSION_INVALID
  | INJECTION_BLOCKED | TOO_LARGE | TOO_COMPLEX | REPETITIVE
  deriving DecidableEq, Repr

inductive IntentMode where
  | TRANSACTIONAL | REFLECTIVE | PLAY
  deriving DecidableEq, Repr

def IntentMode.value : IntentMode → String
  | .TRANSACTIONAL => "TRANSACTIONAL"
  | .REFLECTIVE => "REFLECTIVE"
  | .PLAY => "PLAY"

/-- `IntentMode(s)` — the enum constructor from its string value. -/
def intentModeOfString : String → Option IntentMode
  | "TRANSACTIONAL" => some .TRANSACTIONAL
  | "REFLECTIVE" => some .REFLECTIVE
  | "PLAY" => some .PLAY
  | _ => none

/-- Values stored in a gate's free-form `metadata` dict. -/
inductive MVal where
  | str : String → MVal
  | num : ℚ → MVal
  | flag : Bool → MVal
  | null : MVal
  deriving DecidableEq, Repr

/-- Python truthiness of a metadata value. -/
def MVal.truthy : MVal → Bool
  | .str s => !(s = "")
  | .num q => !(q = 0)
  | .flag b => b
  | .null => false

structure GateOutput where
  gate_name : String
  result : GateResult
  violations : List String := []
  metadata : List (String × MVal) := []
  processing_time_ms : ℚ := 0
  deriving DecidableEq, Repr

structure GateChainResult where
  allowed : Bool
  gate_results : List GateOutput
  mode : Option IntentMode := none
  confidence : ℚ := 0
  total_time_ms : ℚ := 0
  blocked_by : Option String := none
  deriving DecidableEq, Repr

/-- A gate as the orchestrator sees it: name, blocking flag, and an
`evaluate` function.  `run_gates` constructs fresh gate instances on every
call, so within one chain run each gate's evaluation is a pure function
of the request and session token. -/
structure GateSpec where
  name : String
  is_blocking : Bool
  evaluate : List (String × String) → Option String → GateOutput

/-- The output of a gate as recorded by the loop (which overwrites
`processing_time_ms` with a measured duration, modelled as 0). -/
def recordedOutput (g : GateSpec) (request : List (String × String))
    (tok : Option String) : GateOutput :=
  { g.evaluate request tok with processing_time_ms := 0 }

/-- Condition of the intent-capture step of the loop:
`output.gate_name == "Gate5_Intent" and output.metadata.get("mode")`. -/
def capturesIntent (output : GateOutput) : Bool :=
  output.gate_name = "Gate5_Intent"
    && (match output.metadata.lookup "mode" with
        | some v => v.truthy
        | none => false)

/-- `mode = IntentMode(output.metadata["mode"])` when the capture fires. -/
def captureMode (output : GateOutput) (mode : Option IntentMode) : Option IntentMode :=
  if capturesIntent output then
    match output.metadata.lookup "mode" with
    | some (.str s) => intentModeOfString s
    | _ => mode
  else mode

/-- `confidence = output.metadata.get("confidence", 0.0)` when the capture
fires. -/
def captureConf (output : GateOutput) (conf : ℚ) : ℚ :=
  if capturesIntent output then
    match output.metadata.lookup "confidence" with
    | some (.num q) => q
    | _ => 0
  else conf

/-- The loop body of `run_gates`, accumulating gate outputs and the
captured intent mode/confidence. -/
def runGatesAux (request : List (String × String)) (tok : Option String) :
    List GateSpec → List GateOutput → Option IntentMode → ℚ → GateChainResult
  | [], acc, mode, conf =>
    { allowed := true, gate_results := acc, mode := mode, confidence := conf,
      total_time_ms := 0, blocked_by := none }
  | g :: gs, acc, mode, conf =>
    let output := recordedOutput g request tok
    let acc' := acc ++ [output]
    if output.result ≠ GateResult.PASS ∧ g.is_blocking then
      { allowed := false, gate_results := acc', mode := none, confidence := 0,
        total_time_ms := 0, blocked_by := some output.gate_name }
    else
      runGatesAux request tok gs acc' (captureMode output mode) (captureConf output conf)

/-- `run_gates` over an arbitrary gate list (the default configuration
instantiates it with Gate0, Gate3, Gate4, Gate5). -/
def run_gates (gates : List GateSpec) (request : List (String × String))
    (session_token : Option String) : GateChainResult :=
  runGatesAux request session_token gates [] none 0

/-! ### `gates/gate0_transport.py` — transport gate

The gate's mutable maps are modelled as functions; the wall clock is the
explicit `now : ℤ` argument (both `time.time()` reads within one
`evaluate` call happen at the same modelled instant).  The SHA-256
request fingerprint (truncated hexdigest) is the parameter `Hsh`. -/

structure RateLimitConfig where
  requests_per_minute : ℕ := 60
  ttl_seconds : ℤ := 60
  replay_ttl_seconds : ℤ := 300
  deriving DecidableEq, Repr

structure G0State where
  request_hashes : String → Option ℤ
  rate_windows : String → List ℤ

def g0Init : G0State :=
  { request_hashes := fun _ => none, rate_windows := fun _ => [] }

def reqContent (request : List (String × String)) : String :=
  (request.lookup "content").getD ""

/-- `_compute_request_hash`: hash of the content plus a one-minute bucket. -/
def computeRequestHash (Hsh : String → String) (request : List (String × String))
    (now : ℤ) : String :=
  Hsh (reqContent request ++ ":" ++ toString (now / 60))

/-- `_cleanup_expired`. -/
def cleanupExpired (cfg : RateLimitConfig) (st : G0State) (now : ℤ) : G0State :=
  { request_hashes := fun h =>
      match st.request_hashes h with
      | some ts => if now - ts > cfg.replay_ttl_seconds then none else some ts
      | none => none,
    rate_windows := fun s =>
      (st.rate_windows s).filter (fun ts => ts > now - cfg.ttl_seconds) }

/-- `_check_replay`: true if the fingerprint was already seen; otherwise
record it. -/
def checkReplay (Hsh : String → String) (st : G0State)
    (request : List (String × String)) (now : ℤ) : Bool × G0State :=
  match st.request_hashes (computeRequestHash Hsh request now) with
  | some _ => (true, st)
  | none =>
    (false, { st with request_hashes := fun h' =>
        if h' = computeRequestHash Hsh request now then some now
        else st.request_hashes h' })

/-- `_check_rate_limit`: re-filter the window, store it back, and either
report the ceiling reached or record this request. -/
def checkRateLimit (cfg : RateLimitConfig) (st : G0State) (token : String)
    (now : ℤ) : Bool × G0State :=
  if ((st.rate_windows token).filter
      (fun ts => ts > now - cfg.ttl_seconds)).length ≥ cfg.requests_per_minute then
    (true, { st with rate_windows := fun s =>
        if s = token then
          (st.rate_windows token).filter (fun ts => ts > now - cfg.ttl_seconds)
        else st.rate_windows s })
  else
    (false, { st with rate_windows := fun s =>
        if s = token then
          (st.rate_windows token).filter (fun ts => ts > now - cfg.ttl_seconds) ++ [now]
        else st.rate_windows s })

/-- `_validate_session`: token present and at least 8 characters. -/
def validateSession : Option String → Bool
  | none => false
  | some t => t.length ≥ 8

/-- `_get_remaining`. -/
def getRemaining (cfg : RateLimitConfig) (st : G0State) (token : String) : ℕ :=
  cfg.requests_per_minute - (st.rate_windows token).length

/-- Metadata value `session_token[:8] + "..." if session_token else None`. -/
def tokenMeta : Option String → MVal
  | none => .null
  | some t => if t = "" then .null else .str (t.take 8 ++ "...")

/-- `Gate0Transport.evaluate`. -/
def gate0_evaluate (Hsh : String → String) (cfg : RateLimitConfig) (st : G0State)
    (request : List (String × String)) (session_token : Option String) (now : ℤ) :
    GateOutput × G0State :=
  if !validateSession session_token then
    ({ gate_name := "Gate0_Transport", result := .SESSION_INVALID,
       violations := ["Invalid or missing session token"],
       metadata := [("session_token", tokenMeta session_token)] },
     cleanupExpired cfg st now)
  else if (checkReplay Hsh (cleanupExpired cfg st now) request now).1 then
    ({ gate_name := "Gate0_Transport", result := .REPLAY_REJECTED,
       violations := ["Duplicate request detected within TTL window"],
       metadata := [("ttl_seconds", .num cfg.replay_ttl_seconds)] },
     (checkReplay Hsh (cleanupExpired cfg st now) request now).2)
  else if (checkRateLimit cfg (checkReplay Hsh (cleanupExpired cfg st now) request now).2
      (session_token.getD "") now).1 then
    ({ gate_name := "Gate0_Transport", result := .RATE_LIMITED,
       violations := ["Rate limit exceeded: " ++ toString cfg.requests_per_minute ++ "/min"],
       metadata := [("limit", .num cfg.requests_per_minute),
                    ("window_seconds", .num cfg.ttl_seconds)] },
     (checkRateLimit cfg (checkReplay Hsh (cleanupExpired cfg st now) request now).2
       (session_token.getD "") now).2)
  else
    ({ gate_name := "Gate0_Transport", result := .PASS,
       metadata := [("session_valid", .flag true),
                    ("rate_remaining", .num (getRemaining cfg
                      (checkRateLimit cfg
                        (checkReplay Hsh (cleanupExpired cfg st now) request now).2
                        (session_token.getD "") now).2 (session_token.getD "")))] },
     (checkRateLimit cfg (checkReplay Hsh (cleanupExpired cfg st now) request now).2
       (session_token.getD "") now).2)

/-! ### `gates/gate5_intent.py` — intent classification

`Gate5Intent` is parameterized by its signal list (as `__init__` is); a
signal is its compiled pattern-search function plus mode and weight.
Float arithmetic is modelled over `ℚ`. -/

structure IntentSignal where
  matchFn : String → Bool
  mode : IntentMode
  weight : ℚ

/-- Per-mode score dictionary. -/
structure Scores where
  t : ℚ := 0
  r : ℚ := 0
  p : ℚ := 0
  deriving DecidableEq, Repr

def Scores.add (s : Scores) (m : IntentMode) (w : ℚ) : Scores :=
  match m with
  | .TRANSACTIONAL => { s with t := s.t + w }
  | .REFLECTIVE => { s with r := s.r + w }
  | .PLAY => { s with p := s.p + w }

def scoreSignals (signals : List IntentSignal) (content : String) : Scores :=
  signals.foldl (fun sc sig => if sig.matchFn content then sc.add sig.mode sig.weight else sc)
    { }

/-- Python `round(x, 3)` (half-up on exact rationals; the repository's
weights never hit a banker's-rounding tie). -/
def pyRound3 (q : ℚ) : ℚ := (Int.floor (q * 1000 + 1/2) : ℚ) / 1000

/-- `Gate5Intent._classify`: winner, confidence, normalized breakdown.
`max` over the score dict returns the first maximum in insertion order
(TRANSACTIONAL, REFLECTIVE, PLAY). -/
def gate5_classify (signals : List IntentSignal) (content : String) :
    IntentMode × ℚ × Scores :=
  let scores := scoreSignals signals content
  let total := scores.t + scores.r + scores.p
  if total = 0 then
    (.TRANSACTIONAL, 3/10, scores)
  else
    let nt := scores.t / total
    let nr := scores.r / total
    let np := scores.p / total
    let (mode, share) : IntentMode × ℚ :=
      if nt ≥ nr ∧ nt ≥ np then (.TRANSACTIONAL, nt)
      else if nr ≥ np then (.REFLECTIVE, nr)
      else (.PLAY, np)
    let hi := max nt (max nr np)
    let lo := min nt (min nr np)
    let mid := nt + nr + np - hi - lo
    let confidence := min 1 (share + (hi - mid) * (1/2))
    (mode, confidence, { t := nt, r := nr, p := np })

/-- Regex `\?(\s|$)` of `_get_structural_hints`. -/
def isQuestionScan : List Char → Bool
  | [] => false
  | ['?'] => true
  | '?' :: c :: rest => wsChar c || isQuestionScan (c :: rest)
  | _ :: rest => isQuestionScan rest

/-- Helper for the inline-code half of regex ``` `[^`]+` ```: after an
opening backtick, look for a closing backtick with at least one
non-backtick in between. -/
def afterTick : List Char → Bool → Bool
  | [], _ => false
  | c :: rest, seen => if c = '`' then seen else afterTick rest true

def inlineCodeScan : List Char → Bool
  | [] => false
  | c :: rest => (c = '`' && afterTick rest false) || inlineCodeScan rest

/-- Regex ``` ```|`[^`]+` ``` (code presence). -/
def hasCode (content : String) : Bool :=
  isSubstr "```" content || inlineCodeScan content.toList

/-- Python `len(content.split())`. -/
def countWords : List Char → Bool → ℕ
  | [], _ => 0
  | c :: rest, inWord =>
    if wsChar c then countWords rest false
    else (if inWord then 0 else 1) + countWords rest true

/-- Regex `(?i)(urgent|asap|immediately|quick(ly)?)` — unanchored,
case-insensitive substring search (`quickly` contains `quick`). -/
def isUrgent (content : String) : Bool :=
  ["urgent", "asap", "immediately", "quick"].any
    (fun w => listInfix w.toList (toLowerList content))

/-- `_get_structural_hints`. -/
def structuralHints (content : String) : List (String × MVal) :=
  let wc := countWords content.toList false
  [("is_question", .flag (isQuestionScan content.toList)),
   ("has_code", .flag (hasCode content)),
   ("length", .str (if wc < 20 then "short" else if wc < 100 then "medium" else "long")),
   ("urgent", .flag (isUrgent content))]

/-- The structural-hint adjustment of `evaluate`: code presence promotes a
weak non-transactional classification to TRANSACTIONAL. -/
def gate5AdjMode (signals : List IntentSignal) (content : String) : IntentMode :=
  if hasCode content ∧ (gate5_classify signals content).1 ≠ IntentMode.TRANSACTIONAL
      ∧ (gate5_classify signals content).2.1 < 7/10 then
    IntentMode.TRANSACTIONAL
  else (gate5_classify signals content).1

def gate5AdjConf (signals : List IntentSignal) (content : String) : ℚ :=
  if hasCode content ∧ (gate5_classify signals content).1 ≠ IntentMode.TRANSACTIONAL
      ∧ (gate5_classify signals content).2.1 < 7/10 then
    6/10
  else (gate5_classify signals content).2.1

/-- `Gate5Intent.evaluate`. -/
def gate5_evaluate (signals : List IntentSignal) (request : List (String × String))
    (_session_token : Option String) : GateOutput :=
  if reqContent request = "" then
    { gate_name := "Gate5_Intent", result := .PASS,
      metadata := [("mode", .str "TRANSACTIONAL"), ("confidence", .num (1/2)),
                   ("reason", .str "Empty content - defaulting to TRANSACTIONAL")] }
  else
    { gate_name := "Gate5_Intent", result := .PASS,
      metadata := [("mode", .str (gate5AdjMode signals (reqContent request)).value),
                   ("confidence", .num (pyRound3 (gate5AdjConf signals (reqContent request)))),
                   ("score_t", .num (pyRound3 (gate5_classify signals (reqContent request)).2.2.t)),
                   ("score_r", .num (pyRound3 (gate5_classify signals (reqContent request)).2.2.r)),
                   ("score_p", .num (pyRound3 (gate5_classify signals (reqContent request)).2.2.p))]
        ++ structuralHints (reqContent request) }

/-- Projection: the reported routing mode string. -/
def reportedMode (out : GateOutput) : Option String :=
  match out.metadata.lookup "mode" with
  | some (.str s) => some s
  | _ => none

/-- Projection: the reported confidence. -/
def reportedConfidence (out : GateOutput) : Option ℚ :=
  match out.metadata.lookup "confidence" with
  | some (.num q) => some q
  | _ => none

/-! ### `interceptor.py` — file state capture -/

structure FileState where
  path : String
  hash_before : Option String := none
  hash_after : Option String := none
  backup_path : Option String := none
  content_before : Option String := none
  deriving DecidableEq, Repr

structure InterceptorState where
  states : String → Option FileState

def interceptorInit : InterceptorState := { states := fun _ => none }

/-- `Interceptor.capture_before`: snapshot the file as it currently is and
(re)register the tracked state for the path. -/
def capture_before (H : String → String) (fs : FS) (ist : InterceptorState)
    (path : String) : FileState × InterceptorState :=
  let st : FileState :=
    match fs path with
    | some c => { path := path, hash_before := some (H c), content_before := some c }
    | none => { path := path, hash_before := some "NEW_FILE", content_before := none }
  (st, { states := fun q => if q = path then some st else ist.states q })

/-- `Interceptor.capture_after`: reuse the tracked state if present (else
capture it now) and fill in `hash_after`. -/
def capture_after (H : String → String) (fs : FS) (ist : InterceptorState)
    (path : String) : FileState × InterceptorState :=
  match ist.states path with
  | some st =>
    let st' := { st with hash_after := some (compute_file_hash H fs path) }
    (st', { states := fun q => if q = path then some st' else ist.states q })
  | none =>
    let (st, ist') := capture_before H fs ist path
    let st' := { st with hash_after := some (compute_file_hash H fs path) }
    (st', { states := fun q => if q = path then some st' else ist'.states q })

/-! ### Auxiliary definitions used in theorem statements and witnesses -/

/-- A pattern whose first piece is a literal starting with a word
character (true of every pattern family in `rules.py`, which all begin
with `\b` followed by a letter). -/
def patHeadWord : List Piece → Bool
  | .lit (a :: _) :: _ => wordChar a
  | _ => false

/-- Two log lines that agree except possibly in the stored signature. -/
def sameExceptSig : LogLine → LogLine → Prop
  | none, none => True
  | some e1, some e2 => e1.base = e2.base ∧ e1.chain_hash = e2.chain_hash
  | _, _ => False

/-- Run `Gate0Transport.evaluate` over a list of request contents in
sequence (same session token, same instant), threading the gate state. -/
def g0RunSeq (Hsh : String → String) (cfg : RateLimitConfig) (tok : Option String)
    (now : ℤ) : List String → G0State → List GateOutput × G0State
  | [], st => ([], st)
  | c :: cs, st =>
    let (out, st') := gate0_evaluate Hsh cfg st [("content", c)] tok now
    let (outs, st'') := g0RunSeq Hsh cfg tok now cs st'
    (out :: outs, st'')

/-- Fingerprint assigned by `_compute_request_hash` to a content string. -/
def requestFingerprint (Hsh : String → String) (c : String) (now : ℤ) : String :=
  Hsh (c ++ ":" ++ toString (now / 60))

/-! Concrete instantiations for witnesses and counterexamples. -/

/-- An injective stand-in for a hex digest (witnesses only). -/
def wHid : String → String := fun s => s

/-- A constant stand-in for the base64 Ed25519 signature (witnesses only). -/
def wSigA : String → String := fun _ => "AAAA"

/-- A constant stand-in for the truncated md5 path hash (witnesses only). -/
def wMd5 : String → String := fun _ => "00000000"

def cInput0 : DecisionInput :=
  { eventId := "e1", timestamp := "2026-01-01T00:00:00+00:00", policyHash := "p0",
    rulesVersion := "1.0", action := "BLOCK", resource := "/tmp/memory.json",
    violation_code := some "UNAUTHORIZED_MEMORY_WRITE",
    hash_before := "FILE_NOT_FOUND", hash_after := "abc", actor := "agent" }

/-- The log entry produced by appending `cInput0` to an empty chain. -/
def cEntry0 : LogEntry := (generate_decision_record wHid wSigA none cInput0).1

/-- `cEntry0` with a single character of its signature flipped
(`"AAAA"` → `"AAAB"`): the serialized log lines differ in exactly one byte. -/
def cFlip0 : LogEntry := { cEntry0 with signature := some "AAAB" }

def cMeta : GWMeta :=
  { eventId := "e1", timestamp := "2026-01-01T00:00:00+00:00",
    policyHash := "p0", rulesVersion := "1.0" }

def cStEmpty : GWState := { fs := fsEmpty, chain := none, log := [] }

def gPassSpec : GateSpec :=
  { name := "G_pass", is_blocking := true,
    evaluate := fun _ _ => { gate_name := "G_pass", result := .PASS } }

def gBlockSpec : GateSpec :=
  { name := "G_block", is_blocking := true,
    evaluate := fun _ _ =>
      { gate_name := "G_block", result := .BLOCKED, violations := ["blocked"] } }

def gAfterSpec : GateSpec :=
  { name := "G_after", is_blocking := true,
    evaluate := fun _ _ => { gate_name := "G_after", result := .PASS } }

/-- A small concrete signal list for the Gate 5 witness. -/
def wSignals : List IntentSignal :=
  [{ matchFn := fun s => isSubstr "calculate" s, mode := .TRANSACTIONAL, weight := 9/10 }]

/-! ## Theorems

### Rule checker lemmas (claims C5 and C6) -/

lemma check_content_eq_firstMatch (content path : String) :
    check_content content path = firstMatchDecision content path := by
  simp only [check_content, firstMatchDecision, ruleFamiliesSpec, List.find?]
  by_cases h1 : (isMemoryFile path && !isSubstr APPROVAL_MARKER content) = true <;>
  by_cases h2 : firstPersonMatch (toLowerList content) = true <;>
  by_cases h3 : hallucinationMatch (toLowerList content) = true <;>
  by_cases h4 : ownershipMatch (toLowerList content) = true <;>
  by_cases h5 : medicalLegalMatch (toLowerList content) = true <;>
  simp [h1, h2, h3, h4, h5]

lemma ne_of_word_classes {c a : Char} (hc : wordChar c = false)
    (ha : wordChar a = true) : c ≠ a := by
  intro h; subst h; rw [hc] at ha; exact Bool.false_ne_true ha

lemma matchPieces_lit_no_word {a : Char} {l : List Char} {ps : List Piece}
    {s : List Char} (ha : wordChar a = true) (hs : ∀ c ∈ s, wordChar c = false) :
    matchPieces (.lit (a :: l) :: ps) s = false := by
  cases s with
  | nil => simp [matchPieces, stripLit]
  | cons c rest =>
    have hne : c ≠ a := ne_of_word_classes (hs c (by simp)) ha
    simp [matchPieces, stripLit, hne]

lemma searchAt_no_word (a : Char) (l : List Char) (ps : List Piece)
    (ha : wordChar a = true) :
    ∀ (s : List Char), (∀ c ∈ s, wordChar c = false) →
      ∀ b, searchAt (.lit (a :: l) :: ps) s b = false := by
  intro s
  induction s with
  | nil => intro hs b; simp [searchAt, matchPieces_lit_no_word ha hs]
  | cons c rest ih =>
    intro hs b
    have h1 : matchPieces (.lit (a :: l) :: ps) (c :: rest) = false :=
      matchPieces_lit_no_word ha hs
    simp only [searchAt, h1, Bool.and_false, Bool.false_or]
    exact ih (fun x hx => hs x (List.mem_cons_of_mem _ hx)) _

lemma anyPatternMatches_no_word {pats : List (List Piece)} {s : List Char}
    (hp : pats.all patHeadWord = true) (hs : ∀ c ∈ s, wordChar c = false) :
    anyPatternMatches pats s = false := by
  induction pats with
  | nil => rfl
  | cons p ps ih =>
    simp only [List.all_cons, Bool.and_eq_true] at hp
    obtain ⟨hph, hpt⟩ := hp
    have hrest : anyPatternMatches ps s = false := ih hpt
    cases p with
    | nil => simp [patHeadWord] at hph
    | cons pc pr =>
      cases pc with
      | wsp => simp [patHeadWord] at hph
      | wcp => simp [patHeadWord] at hph
      | lit l =>
        cases l with
        | nil => simp [patHeadWord] at hph
        | cons a l' =>
          have ha : wordChar a = true := by simpa [patHeadWord] using hph
          have h1 := searchAt_no_word a l' pr ha s hs true
          simp only [anyPatternMatches, List.any_cons] at *
          simp [h1, hrest]

lemma stripLit_no_word_head (a : Char) (l s' : List Char) (c : Char)
    (ha : wordChar a = true) (hc : wordChar c = false) :
    stripLit (a :: l) (c :: s') = none := by
  simp [stripLit, ne_of_word_classes hc ha]

lemma ownFirstScan_no_word :
    ∀ (s : List Char), (∀ c ∈ s, wordChar c = false) → ∀ b, ownFirstScan s b = false := by
  intro s
  induction s with
  | nil => intro _ b; rfl
  | cons c rest ih =>
    intro hs b
    have hc : wordChar c = false := hs c (by simp)
    have hany : (OWNERSHIP_W1.any (fun w =>
        match stripLit w.toList (c :: rest) with
        | some r =>
          (match r with
           | [] => false
           | d :: _ => !wordChar d) && ownSecondScan r false
        | none => false)) = false := by
      rw [List.any_eq_false]
      intro w hw
      fin_cases hw
      · rw [show ("acquired".toList) = 'a' :: "cquired".toList from rfl,
          stripLit_no_word_head 'a' _ _ c (by decide) hc]
        simp
      · rw [show ("purchased".toList) = 'p' :: "urchased".toList from rfl,
          stripLit_no_word_head 'p' _ _ c (by decide) hc]
        simp
      · rw [show ("bought".toList) = 'b' :: "ought".toList from rfl,
          stripLit_no_word_head 'b' _ _ c (by decide) hc]
        simp
      · rw [show ("owns".toList) = 'o' :: "wns".toList from rfl,
          stripLit_no_word_head 'o' _ _ c (by decide) hc]
        simp
    simp only [ownFirstScan, hany, Bool.and_false, Bool.false_or]
    exact ih (fun x hx => hs x (List.mem_cons_of_mem _ hx)) _

lemma listInfix_no_ws {c0 : Char} {n : List Char} (hc0 : wsChar c0 = false) :
    ∀ (s : List Char), (∀ c ∈ s, wsChar c = true) → listInfix (c0 :: n) s = false := by
  intro s
  induction s with
  | nil => intro _; rfl
  | cons c rest ih =>
    intro hs
    have hne : c0 ≠ c := by
      intro h; subst h; rw [hs c0 (by simp)] at hc0; exact absurd hc0 (by simp)
    have h1 : (c0 :: n).isPrefixOf (c :: rest) = false := by
      simp [List.isPrefixOf, hne]
    simp only [listInfix, h1, Bool.false_or]
    exact ih (fun x hx => hs x (List.mem_cons_of_mem _ hx))

lemma wsChar_cases {c : Char} (h : wsChar c = true) :
    c = ' ' ∨ c = '\t' ∨ c = '\n' ∨ c = '\r' ∨ c = '\x0b' ∨ c = '\x0c' := by
  have := h
  simp only [wsChar, Bool.or_eq_true, decide_eq_true_eq] at this
  tauto

lemma wsChar_toLower {c : Char} (h : wsChar c = true) : c.toLower = c := by
  rcases wsChar_cases h with h | h | h | h | h | h <;> subst h <;> decide

lemma wsChar_not_word {c : Char} (h : wsChar c = true) : wordChar c = false := by
  rcases wsChar_cases h with h | h | h | h | h | h <;> subst h <;> decide

/-- C5: `check_content` evaluates the rule families in the fixed order
memory-write, first-person authority, hallucinated fact, ownership claim,
medical/legal, returning BLOCK with the code of the first family that
matches and `(ALLOW, None)` when none does; the sentence
`"Paul confirmed the deal was signed on January 5th."` is not matched by
the (earlier) first-person family and yields `(BLOCK, HALLUCINATED_FACT)`. -/
theorem c5_rule_order_first_match :
    (∀ content path, check_content content path = firstMatchDecision content path)
    ∧ firstPersonMatch (toLowerList "Paul confirmed the deal was signed on January 5th.") = false
    ∧ hallucinationMatch (toLowerList "Paul confirmed the deal was signed on January 5th.") = true
    ∧ check_content "Paul confirmed the deal was signed on January 5th." "/notes/summary.md"
        = ("BLOCK", some VIOLATION_HALLUCINATED_FACT) :=
  ⟨check_content_eq_firstMatch, by decide, by decide, by decide⟩

/-- C6 counterexample: empty content written to a memory-convention path is
BLOCKED (`UNAUTHORIZED_MEMORY_WRITE`), not allowed as the claim states. -/
theorem c6_counterexample :
    check_content "" "/path/to/memory.json"
      = ("BLOCK", some VIOLATION_UNAUTHORIZED_MEMORY) := by decide

/-- C6 (amended): whitespace-only (including empty) content is allowed for
every destination that does not match the memory/state-file naming
convention; for a memory-convention destination it is blocked with
`UNAUTHORIZED_MEMORY_WRITE` because it lacks the approval marker. -/
theorem c6_ws_only_amended (content path : String)
    (h : content.toList.all wsChar = true) :
    check_content content path =
      if isMemoryFile path then ("BLOCK", some VIOLATION_UNAUTHORIZED_MEMORY)
      else ("ALLOW", none) := by
  have hws : ∀ c ∈ content.toList, wsChar c = true := by
    intro c hc; exact List.all_eq_true.mp h c hc
  have hlow : ∀ c ∈ toLowerList content, wordChar c = false := by
    intro c hc
    simp only [toLowerList, List.mem_map] at hc
    obtain ⟨d, hd, rfl⟩ := hc
    rw [wsChar_toLower (hws d hd)]
    exact wsChar_not_word (hws d hd)
  have hmk : isSubstr APPROVAL_MARKER content = false := by
    show listInfix APPROVAL_MARKER.toList content.toList = false
    rw [show APPROVAL_MARKER.toList = '<' :: "!-- APPROVED_WRITE -->".toList from rfl]
    exact listInfix_no_ws (by decide) content.toList hws
  have hfp : firstPersonMatch (toLowerList content) = false :=
    anyPatternMatches_no_word (by decide) hlow
  have hhall : hallucinationMatch (toLowerList content) = false :=
    anyPatternMatches_no_word (by decide) hlow
  have hmed : medicalLegalMatch (toLowerList content) = false :=
    anyPatternMatches_no_word (by decide) hlow
  have hownB : anyPatternMatches OWNERSHIP_PATTERNS_B (toLowerList content) = false :=
    anyPatternMatches_no_word (by decide) hlow
  have hown : ownershipMatch (toLowerList content) = false := by
    simp [ownershipMatch, ownFirstScan_no_word _ hlow true, hownB]
  by_cases hm : isMemoryFile path = true
  · simp [check_content, hm, hmk]
  · rw [Bool.not_eq_true] at hm
    simp [check_content, hm, hfp, hhall, hown, hmed]

/-- C6 witness: the amended theorem applied to whitespace content `"  "`
and the memory path `"/tmp/memory.json"`. -/
theorem c6_ws_only_amended_witness :
    ("  ".toList.all wsChar = true)
    ∧ check_content "  " "/tmp/memory.json"
        = ("BLOCK", some VIOLATION_UNAUTHORIZED_MEMORY) :=
  ⟨by decide, by
    have h := c6_ws_only_amended "  " "/tmp/memory.json" (by decide)
    simpa using h⟩

/-! ### Crypto chain lemmas (claims C2 and C3) -/

lemma appendAll_verify (H Sig : String → String) :
    ∀ (rs : List DecisionInput) (st : ChainState) (n : ℕ) (rest : List LogLine),
      verifyChainFrom H (st.getD "GENESIS") n ((appendAll H Sig rs st).1 ++ rest)
        = verifyChainFrom H ((appendAll H Sig rs st).2.getD "GENESIS") (n + rs.length) rest := by
  intro rs
  induction rs with
  | nil => intro st n rest; simp [appendAll]
  | cons i tl ih =>
    intro st n rest
    simp only [appendAll, generate_decision_record, List.cons_append, verifyChainFrom]
    simp only [if_true, eq_self_iff_true, if_pos, List.append_eq]
    have h := ih (some (H (serializeRecord (recordOfInput i) ++ st.getD "GENESIS"))) (n + 1) rest
    simp only [Option.getD_some] at h
    rw [h]
    have : n + 1 + tl.length = n + (tl.length + 1) := by omega
    rw [this]
    simp [List.length_cons]

lemma verify_chain_appendAll (H Sig : String → String) (rs : List DecisionInput) :
    verify_chain H (appendAll H Sig rs none).1 = (true, none) := by
  have h := appendAll_verify H Sig rs none 1 []
  simpa [verify_chain, verifyChainFrom] using h

lemma appendAll_then_bad (H Sig : String → String) (rs : List DecisionInput)
    (e' : LogEntry) (rest : List LogLine)
    (hbad : e'.chain_hash
      ≠ some (H (serializeRecord e'.base ++ (appendAll H Sig rs none).2.getD "GENESIS"))) :
    verify_chain H ((appendAll H Sig rs none).1 ++ some e' :: rest)
      = (false, some ("Chain broken at line " ++ toString (rs.length + 1) ++ ": hash mismatch")) := by
  have h := appendAll_verify H Sig rs none 1 (some e' :: rest)
  simp only [Option.getD_none] at h
  rw [verify_chain, h]
  simp only [verifyChainFrom]
  rw [if_neg hbad]
  have : 1 + rs.length = rs.length + 1 := by omega
  rw [this]

lemma appendAll_then_junk (H Sig : String → String) (rs : List DecisionInput)
    (rest : List LogLine) :
    verify_chain H ((appendAll H Sig rs none).1 ++ none :: rest)
      = (false, some ("Invalid JSON at line " ++ toString (rs.length + 1))) := by
  have h := appendAll_verify H Sig rs none 1 (none :: rest)
  simp only [Option.getD_none] at h
  rw [verify_chain, h]
  simp only [verifyChainFrom]
  have : 1 + rs.length = rs.length + 1 := by omega
  rw [this]

lemma verify_sig_irrelevant (H : String → String) :
    ∀ {log1 log2 : List LogLine}, List.Forall₂ sameExceptSig log1 log2 →
      ∀ prev n, verifyChainFrom H prev n log1 = verifyChainFrom H prev n log2 := by
  intro log1 log2 hf
  induction hf with
  | nil => intro prev n; rfl
  | cons hab htl ih =>
    intro prev n
    rename_i a b l1 l2
    match a, b, hab with
    | none, none, _ => rfl
    | some e1, some e2, hab =>
      obtain ⟨hb, hc⟩ := hab
      simp only [verifyChainFrom, hb, hc]
      split
      · exact ih _ _
      · rfl

set_option maxRecDepth 100000 in
/-- C2 counterexample: a single-record log produced by
`generate_decision_record` + `append_to_audit_log`, with exactly one byte
of the serialized line flipped (inside the `signature` field), still
verifies as valid — `verify_chain` never checks signatures, so not every
single-byte flip is detected. -/
theorem c2_counterexample :
    ((serializeEntry cEntry0).toList.zip (serializeEntry cFlip0).toList).countP
        (fun p => decide (p.1 ≠ p.2)) = 1
    ∧ (serializeEntry cEntry0).length = (serializeEntry cFlip0).length
    ∧ verify_chain wHid [some cFlip0] = (true, none) := by decide

/-- C2 (amended): appending N records and verifying yields
`(True, None)` (the return carries no `records_checked` count); a flip
that corrupts a line's JSON, or changes its stored `chain_hash`, is
detected with the break reported at exactly that line; flips confined to
the `signature` field are never detected, since `verify_chain` discards
the stored signature. -/
theorem c2_chain_roundtrip_amended :
    (∀ (H Sig : String → String) (rs : List DecisionInput),
      verify_chain H (appendAll H Sig rs none).1 = (true, none))
    ∧ (∀ (H Sig : String → String) (rs : List DecisionInput) (e' : LogEntry)
        (rest : List LogLine),
        e'.chain_hash
          ≠ some (H (serializeRecord e'.base ++ (appendAll H Sig rs none).2.getD "GENESIS")) →
        verify_chain H ((appendAll H Sig rs none).1 ++ some e' :: rest)
          = (false, some ("Chain broken at line " ++ toString (rs.length + 1) ++ ": hash mismatch")))
    ∧ (∀ (H Sig : String → String) (rs : List DecisionInput) (rest : List LogLine),
        verify_chain H ((appendAll H Sig rs none).1 ++ none :: rest)
          = (false, some ("Invalid JSON at line " ++ toString (rs.length + 1))))
    ∧ (∀ (H : String → String) (log1 log2 : List LogLine),
        List.Forall₂ sameExceptSig log1 log2 → verify_chain H log1 = verify_chain H log2) :=
  ⟨verify_chain_appendAll, appendAll_then_bad, appendAll_then_junk,
   fun H _ _ hf => verify_sig_irrelevant H hf "GENESIS" 1⟩

/-- C2 witness: the amended theorem instantiated at a one-record log, a
tampered `chain_hash`, a junk line, and a signature-only difference. -/
theorem c2_chain_roundtrip_amended_witness :
    verify_chain wHid (appendAll wHid wSigA [cInput0] none).1 = (true, none)
    ∧ verify_chain wHid ((appendAll wHid wSigA [] none).1
        ++ some { base := recordOfInput cInput0, chain_hash := some "bogus",
                  signature := none } :: [])
      = (false, some ("Chain broken at line "
          ++ toString (([] : List DecisionInput).length + 1) ++ ": hash mismatch"))
    ∧ verify_chain wHid ((appendAll wHid wSigA [] none).1 ++ none :: [])
      = (false, some ("Invalid JSON at line " ++ toString (([] : List DecisionInput).length + 1)))
    ∧ verify_chain wHid [some cEntry0] = verify_chain wHid [some cFlip0] := by
  obtain ⟨h1, h2, h3, h4⟩ := c2_chain_roundtrip_amended
  exact ⟨h1 wHid wSigA [cInput0],
    h2 wHid wSigA [] _ [] (by decide),
    h3 wHid wSigA [] [],
    h4 wHid [some cEntry0] [some cFlip0]
      (List.Forall₂.cons ⟨rfl, rfl⟩ List.Forall₂.nil)⟩

/-- C3 counterexample: a record lacking a `chain_hash` field is not
skipped — `verify_chain` reports the chain broken at its line. -/
theorem c3_counterexample :
    verify_chain wHid
        [some { base := recordOfInput cInput0, chain_hash := none, signature := none }]
      = (false, some "Chain broken at line 1: hash mismatch") := by decide

/-- C3 (amended): `verify_chain` replays the log from GENESIS recomputing
each `chain_hash` (a correctly generated log verifies); it does not
verify signatures (results are invariant under arbitrary changes to the
stored signatures); and a record lacking a `chain_hash` field breaks the
chain with a hash mismatch at its line instead of being skipped — there
is no skip and no skip report. -/
theorem c3_verify_replay_amended :
    (∀ (H Sig : String → String) (rs : List DecisionInput),
      verify_chain H (appendAll H Sig rs none).1 = (true, none))
    ∧ (∀ (H : String → String) (log1 log2 : List LogLine),
        List.Forall₂ sameExceptSig log1 log2 → verify_chain H log1 = verify_chain H log2)
    ∧ (∀ (H Sig : String → String) (rs : List DecisionInput) (r : RecordBase)
        (sig : Option String) (rest : List LogLine),
        verify_chain H ((appendAll H Sig rs none).1
            ++ some { base := r, chain_hash := none, signature := sig } :: rest)
          = (false, some ("Chain broken at line " ++ toString (rs.length + 1)
              ++ ": hash mismatch"))) :=
  ⟨verify_chain_appendAll,
   fun H _ _ hf => verify_sig_irrelevant H hf "GENESIS" 1,
   fun H Sig rs r sig rest => appendAll_then_bad H Sig rs
     { base := r, chain_hash := none, signature := sig } rest (by simp)⟩

/-- C3 witness: the amended theorem instantiated at concrete logs. -/
theorem c3_verify_replay_amended_witness :
    verify_chain wHid (appendAll wHid wSigA [cInput0] none).1 = (true, none)
    ∧ verify_chain wHid [some cEntry0] = verify_chain wHid [some cFlip0]
    ∧ verify_chain wHid ((appendAll wHid wSigA [] none).1
        ++ some { base := recordOfInput cInput0, chain_hash := none,
                  signature := none } :: [])
      = (false, some ("Chain broken at line "
          ++ toString (([] : List DecisionInput).length + 1) ++ ": hash mismatch")) := by
  obtain ⟨h1, h2, h3⟩ := c3_verify_replay_amended
  exact ⟨h1 wHid wSigA [cInput0],
    h2 wHid [some cEntry0] [some cFlip0] (List.Forall₂.cons ⟨rfl, rfl⟩ List.Forall₂.nil),
    h3 wHid wSigA [] (recordOfInput cInput0) none []⟩

/-! ### Staging gateway lemmas (claim C1) -/

lemma takeWhile_append_of_all {p : Char → Bool} :
    ∀ {u : List Char} (v : List Char), (∀ x ∈ u, p x = true) →
      (u ++ v).takeWhile p = u ++ v.takeWhile p := by
  intro u
  induction u with
  | nil => intro v _; rfl
  | cons a t ih =>
    intro v hu
    have ha : p a = true := hu a (by simp)
    simp only [List.cons_append, List.takeWhile_cons, ha, if_true]
    rw [ih v (fun x hx => hu x (List.mem_cons_of_mem _ hx))]

lemma mem_takeWhile_pred {p : Char → Bool} :
    ∀ {l : List Char} {c : Char}, c ∈ l.takeWhile p → p c = true := by
  intro l
  induction l with
  | nil => intro c hc; simp [List.takeWhile] at hc
  | cons a t ih =>
    intro c hc
    rw [List.takeWhile_cons] at hc
    by_cases ha : p a = true
    · rw [if_pos ha] at hc
      rcases List.mem_cons.mp hc with h | h
      · subst h; exact ha
      · exact ih h
    · rw [if_neg ha] at hc; simp at hc

lemma basenameList_no_slash (l : List Char) : ∀ c ∈ basenameList l, c ≠ '/' := by
  intro c hc
  simp only [basenameList, List.mem_reverse] at hc
  exact of_decide_eq_true (mem_takeWhile_pred hc)

lemma basenameList_append_no_slash (A x : List Char) (hx : ∀ c ∈ x, c ≠ '/') :
    basenameList (A ++ '/' :: x) = x := by
  simp only [basenameList]
  rw [List.reverse_append, List.reverse_cons]
  rw [List.append_assoc]
  rw [takeWhile_append_of_all (['/'] ++ A.reverse)
    (fun c hc => decide_eq_true (hx c (List.mem_reverse.mp hc)))]
  simp [List.takeWhile_cons]

lemma get_staging_path_ne (Hmd5 : String → String) (t : String)
    (hsl : ∀ c ∈ (Hmd5 t).toList, c ≠ '/') : get_staging_path Hmd5 t ≠ t := by
  intro heq
  have hb := congrArg (fun s : String => basenameList s.toList) heq
  simp only at hb
  have hlist : (get_staging_path Hmd5 t).toList
      = STAGING_DIR.toList ++ '/' :: ((Hmd5 t).toList ++ '_' :: basenameList t.toList) := by
    show (STAGING_DIR ++ "/" ++ Hmd5 t ++ "_" ++ basename t).toList = _
    have : (STAGING_DIR ++ "/" ++ Hmd5 t ++ "_" ++ basename t).toList
        = STAGING_DIR.toList ++ "/".toList ++ (Hmd5 t).toList ++ "_".toList
          ++ (basename t).toList := rfl
    rw [this]
    have hbn : (basename t).toList = basenameList t.toList := rfl
    rw [hbn]
    simp
  rw [hlist] at hb
  rw [basenameList_append_no_slash _ _ ?hnos] at hb
  case hnos =>
    intro c hc
    rcases List.mem_append.mp hc with h | h
    · exact hsl c h
    · rcases List.mem_cons.mp h with h | h
      · subst h; decide
      · exact basenameList_no_slash _ c h
  have hlen := congrArg List.length hb
  simp only [List.length_append, List.length_cons] at hlen
  omega

/-- C1: after `stage_write` + `validate_and_commit` (i.e. `gateway_write`),
either the content is BLOCKED — the destination is byte-for-byte untouched,
the staged file is deleted, and a BLOCK record is appended — or it is
ALLOWED — the destination holds exactly the staged content, the staging
file no longer exists, and an ALLOW record is appended.  There is no third
outcome for the destination.  (The hypothesis states that the md5-derived
staging-path component is hex, hence slash-free.) -/
theorem c1_staging_dichotomy (H Hmd5 Sig : String → String) (m : GWMeta)
    (st : GWState) (content target : String)
    (hsl : ∀ c ∈ (Hmd5 target).toList, c ≠ '/') :
    let sp := get_staging_path Hmd5 target
    let res := gateway_write H Hmd5 Sig m st content target
    if (check_content content target).1 = "BLOCK" then
      res.1.1 = false ∧ res.2.fs target = st.fs target ∧ res.2.fs sp = none
        ∧ ∃ e, res.2.log = st.log ++ [some e] ∧ e.base.action = "BLOCK"
    else
      res.1.1 = true ∧ res.2.fs target = some content ∧ res.2.fs sp = none
        ∧ ∃ e, res.2.log = st.log ++ [some e] ∧ e.base.action = "ALLOW" := by
  intro sp res
  have hne : sp ≠ target := get_staging_path_ne Hmd5 target hsl
  have hres : res = validate_and_commit H Sig m
      { st with fs := fsWrite sp content st.fs } sp target := rfl
  have hsp : ({ st with fs := fsWrite sp content st.fs } : GWState).fs sp = some content := by
    simp [fsWrite]
  rw [hres]
  unfold validate_and_commit
  rw [hsp]
  simp only
  rcases hcc : check_content content target with ⟨action, code⟩
  by_cases hact : action = "BLOCK"
  · subst hact
    have hfst : (("BLOCK", code) : String × Option String).1 = "BLOCK" := rfl
    simp only [if_pos hfst]
    refine ⟨rfl, ?_, ?_, ?_⟩
    · simp [fsDelete, fsWrite, Ne.symm hne]
    · simp [fsDelete]
    · exact ⟨_, rfl, rfl⟩
  · have hfst : ¬ ((action, code) : String × Option String).1 = "BLOCK" := hact
    simp only [if_neg hfst]
    refine ⟨trivial, ?_, ?_, ?_⟩
    · simp [fsWrite]
    · simp [fsWrite, fsDelete, hne]
    · exact ⟨_, rfl, rfl⟩

/-- C1 witness: the dichotomy applied to an allowed write of `"hello"` to
`"/notes/a.md"` on an empty filesystem. -/
theorem c1_staging_dichotomy_witness :
    let sp := get_staging_path wMd5 "/notes/a.md"
    let res := gateway_write wHid wMd5 wSigA cMeta cStEmpty "hello" "/notes/a.md"
    if (check_content "hello" "/notes/a.md").1 = "BLOCK" then
      res.1.1 = false ∧ res.2.fs "/notes/a.md" = cStEmpty.fs "/notes/a.md"
        ∧ res.2.fs sp = none
        ∧ ∃ e, res.2.log = cStEmpty.log ++ [some e] ∧ e.base.action = "BLOCK"
    else
      res.1.1 = true ∧ res.2.fs "/notes/a.md" = some "hello" ∧ res.2.fs sp = none
        ∧ ∃ e, res.2.log = cStEmpty.log ++ [some e] ∧ e.base.action = "ALLOW" :=
  c1_staging_dichotomy wHid wMd5 wSigA cMeta cStEmpty "hello" "/notes/a.md" (by decide)

/-! ### Gate chain orchestrator lemmas (claim C4) -/

lemma runGatesAux_allowed_iff (request : List (String × String)) (tok : Option String) :
    ∀ (gs : List GateSpec) (acc : List GateOutput) (m : Option IntentMode) (c : ℚ),
      (runGatesAux request tok gs acc m c).allowed = true
        ↔ (runGatesAux request tok gs acc m c).blocked_by = none := by
  intro gs
  induction gs with
  | nil => intro acc m c; simp [runGatesAux]
  | cons g gs ih =>
    intro acc m c
    simp only [runGatesAux]
    split
    · simp
    · apply ih

lemma runGatesAux_blocks (request : List (String × String)) (tok : Option String)
    (g : GateSpec) (hg : (recordedOutput g request tok).result ≠ GateResult.PASS)
    (hb : g.is_blocking = true) :
    ∀ (pre post : List GateSpec) (acc : List GateOutput) (m : Option IntentMode) (c : ℚ),
      (∀ g' ∈ pre, (recordedOutput g' request tok).result = GateResult.PASS
        ∨ g'.is_blocking = false) →
      runGatesAux request tok (pre ++ g :: post) acc m c
        = { allowed := false,
            gate_results := acc ++ (pre ++ [g]).map (fun g' => recordedOutput g' request tok),
            mode := none, confidence := 0, total_time_ms := 0,
            blocked_by := some ((recordedOutput g request tok).gate_name) } := by
  intro pre
  induction pre with
  | nil =>
    intro post acc m c _
    simp only [List.nil_append, runGatesAux]
    rw [if_pos ⟨hg, hb⟩]
    simp
  | cons p pre ih =>
    intro post acc m c hpre
    simp only [List.cons_append, runGatesAux]
    have hp := hpre p (by simp)
    have hcond : ¬ ((recordedOutput p request tok).result ≠ GateResult.PASS
        ∧ p.is_blocking) := by
      rcases hp with h | h
      · intro hc; exact hc.1 h
      · intro hc
        have : p.is_blocking = true := hc.2
        rw [h] at this
        exact Bool.false_ne_true this
    rw [if_neg hcond]
    simp only [List.append_eq]
    rw [ih post (acc ++ [recordedOutput p request tok]) _ _
      (fun g' h => hpre g' (List.mem_cons_of_mem _ h))]
    simp [List.append_assoc]

/-- C4: in `run_gates`, if every gate before `g` either passes or is
non-blocking and `g` is blocking and returns non-PASS, the chain stops at
`g`: `allowed = false`, `gate_results` holds exactly the outputs of the
gates up to and including `g` (gates after `g` contribute nothing), and
`blocked_by` is `g`'s reported name; moreover for every chain run,
`allowed` holds iff `blocked_by` is `None`. -/
theorem c4_short_circuit :
    (∀ (gates : List GateSpec) (request : List (String × String)) (tok : Option String),
      (run_gates gates request tok).allowed = true
        ↔ (run_gates gates request tok).blocked_by = none)
    ∧ (∀ (request : List (String × String)) (tok : Option String)
        (pre : List GateSpec) (g : GateSpec) (post : List GateSpec),
        (∀ g' ∈ pre, (recordedOutput g' request tok).result = GateResult.PASS
          ∨ g'.is_blocking = false) →
        (recordedOutput g request tok).result ≠ GateResult.PASS →
        g.is_blocking = true →
        run_gates (pre ++ g :: post) request tok
          = { allowed := false,
              gate_results := (pre ++ [g]).map (fun g' => recordedOutput g' request tok),
              mode := none, confidence := 0, total_time_ms := 0,
              blocked_by := some ((recordedOutput g request tok).gate_name) }) := by
  constructor
  · intro gates request tok
    exact runGatesAux_allowed_iff request tok gates [] none 0
  · intro request tok pre g post hpre hg hb
    have h := runGatesAux_blocks request tok g hg hb pre post [] none 0 hpre
    simpa [run_gates] using h

/-- C4 witness: a three-gate chain whose second (blocking) gate fails:
the chain reports exactly the first two outputs and the second gate's
name. -/
theorem c4_short_circuit_witness :
    run_gates ([gPassSpec] ++ gBlockSpec :: [gAfterSpec]) [("content", "hi")] (some "tok12345")
      = { allowed := false,
          gate_results := ([gPassSpec] ++ [gBlockSpec]).map
            (fun g' => recordedOutput g' [("content", "hi")] (some "tok12345")),
          mode := none, confidence := 0, total_time_ms := 0,
          blocked_by := some ((recordedOutput gBlockSpec [("content", "hi")]
            (some "tok12345")).gate_name) } :=
  c4_short_circuit.2 [("content", "hi")] (some "tok12345") [gPassSpec] gBlockSpec [gAfterSpec]
    (by intro g' hg'; simp only [List.mem_singleton] at hg'; subst hg'; left; rfl)
    (by decide) rfl

/-! ### Gate 0 lemmas (claims C7 and C10) -/

/-- C10: an invalid-session request (token absent or shorter than 8
characters) yields `SESSION_INVALID` and consumes no quota: the resulting
state is exactly the opportunistic cleanup of the old one — no replay
fingerprint is added (every surviving entry was already present) and no
timestamp is appended to any session's rate window (each window is a
sublist of the old one). -/
theorem c10_invalid_session_no_quota (Hsh : String → String) (cfg : RateLimitConfig)
    (st : G0State) (request : List (String × String)) (token : Option String) (now : ℤ)
    (h : token = none ∨ ∃ t, token = some t ∧ t.length < 8) :
    let res := gate0_evaluate Hsh cfg st request token now
    res.1.result = GateResult.SESSION_INVALID
    ∧ res.2 = cleanupExpired cfg st now
    ∧ (∀ k ts, res.2.request_hashes k = some ts → st.request_hashes k = some ts)
    ∧ (∀ s, (res.2.rate_windows s).Sublist (st.rate_windows s)) := by
  intro res
  have hval : validateSession token = false := by
    rcases h with h | ⟨t, rfl, ht⟩
    · subst h; rfl
    · simp only [validateSession, decide_eq_false_iff_not]
      omega
  have hres : res =
      ({ gate_name := "Gate0_Transport", result := .SESSION_INVALID,
         violations := ["Invalid or missing session token"],
         metadata := [("session_token", tokenMeta token)] },
       cleanupExpired cfg st now) := by
    show gate0_evaluate Hsh cfg st request token now = _
    unfold gate0_evaluate
    rw [hval]
    rfl
  rw [hres]
  refine ⟨rfl, rfl, ?_, ?_⟩
  · intro k ts hk
    simp only [cleanupExpired] at hk
    cases hcase : st.request_hashes k with
    | none => rw [hcase] at hk; exact absurd hk (by simp)
    | some ts' =>
      rw [hcase] at hk
      have hk' : (if now - ts' > cfg.replay_ttl_seconds then none else some ts')
          = some ts := hk
      by_cases hc : now - ts' > cfg.replay_ttl_seconds
      · rw [if_pos hc] at hk'; exact absurd hk' (by simp)
      · rw [if_neg hc] at hk'; exact hk'
  · intro s
    exact List.filter_sublist _

/-- C10 witness: a 5-character token on a fresh gate. -/
theorem c10_invalid_session_no_quota_witness :
    let res := gate0_evaluate wHid { } g0Init [("content", "x")] (some "short") 0
    res.1.result = GateResult.SESSION_INVALID
    ∧ res.2 = cleanupExpired { } g0Init 0
    ∧ (∀ k ts, res.2.request_hashes k = some ts → g0Init.request_hashes k = some ts)
    ∧ (∀ s, (res.2.rate_windows s).Sublist (g0Init.rate_windows s)) :=
  c10_invalid_session_no_quota wHid { } g0Init [("content", "x")] (some "short") 0
    (Or.inr ⟨"short", rfl, by decide⟩)

lemma filter_replicate_keep {n : ℕ} {x : ℤ} {p : ℤ → Bool} (hp : p x = true) :
    (List.replicate n x).filter p = List.replicate n x := by
  induction n with
  | zero => rfl
  | succ n ih => simp [List.replicate_succ, List.filter_cons, hp, ih]

lemma str_append_right_cancel {a b s : String} (h : a ++ s = b ++ s) : a = b := by
  have h1 : (a ++ s).toList = (b ++ s).toList := congrArg String.toList h
  have h2 : a.toList ++ s.toList = b.toList ++ s.toList := h1
  have h3 : a.toList = b.toList := List.append_cancel_right h2
  cases a; cases b
  exact congrArg String.mk h3

lemma fingerprint_inj {Hsh : String → String} (hinj : Function.Injective Hsh)
    (now : ℤ) {a b : String}
    (h : requestFingerprint Hsh a now = requestFingerprint Hsh b now) : a = b := by
  have h1 := hinj h
  have h2 : (a ++ ":") ++ toString (now / 60) = (b ++ ":") ++ toString (now / 60) := by
    simpa [String.append_assoc] using h1
  have h3 := str_append_right_cancel h2
  exact str_append_right_cancel h3

/-- One PASS step of `Gate0Transport.evaluate` from a characterized state. -/
lemma g0_eval_pass_step {Hsh : String → String} (hinj : Function.Injective Hsh)
    {cfg : RateLimitConfig} (httl : 0 < cfg.ttl_seconds)
    (hrttl : 0 ≤ cfg.replay_ttl_seconds)
    {token : String} (htok : 8 ≤ token.length) {now : ℤ}
    (c : String) (used : List String) (st : G0State)
    (hfresh : c ∉ used)
    (hreq : ∀ k, st.request_hashes k
      = if k ∈ used.map (fun u => requestFingerprint Hsh u now) then some now else none)
    (hwin : st.rate_windows token = List.replicate used.length now)
    (hwin' : ∀ s, s ≠ token → st.rate_windows s = [])
    (hlt : used.length < cfg.requests_per_minute) :
    let res := gate0_evaluate Hsh cfg st [("content", c)] (some token) now
    res.1.result = GateResult.PASS
    ∧ (∀ k, res.2.request_hashes k
        = if k ∈ (used ++ [c]).map (fun u => requestFingerprint Hsh u now)
          then some now else none)
    ∧ res.2.rate_windows token = List.replicate (used ++ [c]).length now
    ∧ (∀ s, s ≠ token → res.2.rate_windows s = []) := by
  intro res
  have hval : validateSession (some token) = true := by
    simp only [validateSession, decide_eq_true_eq]
    omega
  have hreq0 : ∀ k, (cleanupExpired cfg st now).request_hashes k
      = if k ∈ used.map (fun u => requestFingerprint Hsh u now) then some now else none := by
    intro k
    simp only [cleanupExpired, hreq k]
    by_cases hm : k ∈ used.map (fun u => requestFingerprint Hsh u now)
    · rw [if_pos hm]
      show (if now - now > cfg.replay_ttl_seconds then none else some now) = some now
      rw [if_neg (by omega)]
    · rw [if_neg hm]
  have hpnow : (fun ts => decide (ts > now - cfg.ttl_seconds)) now = true := by
    simp only [decide_eq_true_eq]
    omega
  have hwin0 : (cleanupExpired cfg st now).rate_windows token
      = List.replicate used.length now := by
    simp only [cleanupExpired, hwin]
    exact filter_replicate_keep hpnow
  have hfp : requestFingerprint Hsh c now
      ∉ used.map (fun u => requestFingerprint Hsh u now) := by
    intro hm
    obtain ⟨u, hu, he⟩ := List.mem_map.mp hm
    exact hfresh (fingerprint_inj hinj now he ▸ hu)
  have hrep : checkReplay Hsh (cleanupExpired cfg st now) [("content", c)] now
      = (false,
          { request_hashes := fun h' =>
              if h' = requestFingerprint Hsh c now then some now
              else (cleanupExpired cfg st now).request_hashes h',
            rate_windows := (cleanupExpired cfg st now).rate_windows }) := by
    unfold checkReplay
    rw [show computeRequestHash Hsh [("content", c)] now
      = requestFingerprint Hsh c now from rfl]
    rw [hreq0, if_neg hfp]
  have hrep1 : (checkReplay Hsh (cleanupExpired cfg st now) [("content", c)] now).1
      = false := by rw [hrep]
  have hrepHash : (checkReplay Hsh (cleanupExpired cfg st now) [("content", c)] now).2.request_hashes
      = fun h' => if h' = requestFingerprint Hsh c now then some now
          else (cleanupExpired cfg st now).request_hashes h' := by rw [hrep]
  have hrepWin : (checkReplay Hsh (cleanupExpired cfg st now) [("content", c)] now).2.rate_windows
      = (cleanupExpired cfg st now).rate_windows := by rw [hrep]
  have hfilterR : ((checkReplay Hsh (cleanupExpired cfg st now) [("content", c)] now).2.rate_windows
        token).filter (fun ts => decide (ts > now - cfg.ttl_seconds))
      = List.replicate used.length now := by
    rw [hrepWin, hwin0]
    exact filter_replicate_keep hpnow
  have hnotfull : ¬ ((List.replicate used.length now).length ≥ cfg.requests_per_minute) := by
    simp only [List.length_replicate]
    omega
  have hrate1 : (checkRateLimit cfg
      (checkReplay Hsh (cleanupExpired cfg st now) [("content", c)] now).2 token now).1
      = false := by
    unfold checkRateLimit
    rw [hfilterR, if_neg hnotfull]
  have hrateHash : (checkRateLimit cfg
      (checkReplay Hsh (cleanupExpired cfg st now) [("content", c)] now).2 token now).2.request_hashes
      = (checkReplay Hsh (cleanupExpired cfg st now) [("content", c)] now).2.request_hashes := by
    unfold checkRateLimit
    rw [hfilterR, if_neg hnotfull]
  have hrateWin : (checkRateLimit cfg
      (checkReplay Hsh (cleanupExpired cfg st now) [("content", c)] now).2 token now).2.rate_windows
      = fun s => if s = token then List.replicate used.length now ++ [now]
          else (checkReplay Hsh (cleanupExpired cfg st now) [("content", c)] now).2.rate_windows s := by
    unfold checkRateLimit
    rw [hfilterR, if_neg hnotfull]
  have hev : res =
      ({ gate_name := "Gate0_Transport", result := .PASS,
         metadata := [("session_valid", .flag true),
                      ("rate_remaining", .num (getRemaining cfg
                        (checkRateLimit cfg
                          (checkReplay Hsh (cleanupExpired cfg st now) [("content", c)] now).2
                          ((some token).getD "") now).2 ((some token).getD "")))] },
       (checkRateLimit cfg
         (checkReplay Hsh (cleanupExpired cfg st now) [("content", c)] now).2
         ((some token).getD "") now).2) := by
    show gate0_evaluate Hsh cfg st [("content", c)] (some token) now = _
    unfold gate0_evaluate
    rw [hval]
    simp only [Bool.not_true, Bool.false_eq_true, if_false]
    rw [show ((some token).getD "") = token from rfl, hrep1, hrate1]
    simp
  rw [hev]
  simp only [show ((some token).getD "") = token from rfl]
  refine ⟨by trivial, ?_, ?_, ?_⟩
  · intro k
    rw [hrateHash]
    have hk := congrFun hrepHash k
    simp only at hk
    rw [hk]
    by_cases he : k = requestFingerprint Hsh c now
    · have hm2 : k ∈ (used ++ [c]).map (fun u => requestFingerprint Hsh u now) := by
        rw [List.map_append]
        exact List.mem_append.mpr (Or.inr (by simp [he]))
      rw [if_pos he, if_pos hm2]
    · rw [if_neg he, hreq0 k]
      by_cases hm : k ∈ used.map (fun u => requestFingerprint Hsh u now)
      · have hm2 : k ∈ (used ++ [c]).map (fun u => requestFingerprint Hsh u now) := by
          rw [List.map_append]
          exact List.mem_append.mpr (Or.inl hm)
        rw [if_pos hm, if_pos hm2]
      · have hm2 : k ∉ (used ++ [c]).map (fun u => requestFingerprint Hsh u now) := by
          rw [List.map_append]
          intro hin
          rcases List.mem_append.mp hin with h | h
          · exact hm h
          · simp only [List.map_cons, List.map_nil, List.mem_singleton] at h
            exact he h
        rw [if_neg hm, if_neg hm2]
  · have hw := congrFun hrateWin token
    simp only at hw
    rw [hw]
    simp [List.replicate_succ']
  · intro s hs
    have hw := congrFun hrateWin s
    simp only at hw
    rw [hw, if_neg hs, hrepWin]
    simp only [cleanupExpired, hwin' s hs, List.filter_nil]

/-- One RATE_LIMITED step once the window already holds the ceiling. -/
lemma g0_eval_limited_step {Hsh : String → String} (hinj : Function.Injective Hsh)
    {cfg : RateLimitConfig} (httl : 0 < cfg.ttl_seconds)
    (hrttl : 0 ≤ cfg.replay_ttl_seconds)
    {token : String} (htok : 8 ≤ token.length) {now : ℤ}
    (c : String) (used : List String) (st : G0State)
    (hfresh : c ∉ used)
    (hreq : ∀ k, st.request_hashes k
      = if k ∈ used.map (fun u => requestFingerprint Hsh u now) then some now else none)
    (hwin : st.rate_windows token = List.replicate used.length now)
    (hge : cfg.requests_per_minute ≤ used.length) :
    (gate0_evaluate Hsh cfg st [("content", c)] (some token) now).1.result
      = GateResult.RATE_LIMITED := by
  have hval : validateSession (some token) = true := by
    simp only [validateSession, decide_eq_true_eq]
    omega
  have hreq0 : ∀ k, (cleanupExpired cfg st now).request_hashes k
      = if k ∈ used.map (fun u => requestFingerprint Hsh u now) then some now else none := by
    intro k
    simp only [cleanupExpired, hreq k]
    by_cases hm : k ∈ used.map (fun u => requestFingerprint Hsh u now)
    · rw [if_pos hm]
      show (if now - now > cfg.replay_ttl_seconds then none else some now) = some now
      rw [if_neg (by omega)]
    · rw [if_neg hm]
  have hpnow : (fun ts => decide (ts > now - cfg.ttl_seconds)) now = true := by
    simp only [decide_eq_true_eq]
    omega
  have hwin0 : (cleanupExpired cfg st now).rate_windows token
      = List.replicate used.length now := by
    simp only [cleanupExpired, hwin]
    exact filter_replicate_keep hpnow
  have hfp : requestFingerprint Hsh c now
      ∉ used.map (fun u => requestFingerprint Hsh u now) := by
    intro hm
    obtain ⟨u, hu, he⟩ := List.mem_map.mp hm
    exact hfresh (fingerprint_inj hinj now he ▸ hu)
  have hrep : checkReplay Hsh (cleanupExpired cfg st now) [("content", c)] now
      = (false,
          { request_hashes := fun h' =>
              if h' = requestFingerprint Hsh c now then some now
              else (cleanupExpired cfg st now).request_hashes h',
            rate_windows := (cleanupExpired cfg st now).rate_windows }) := by
    unfold checkReplay
    rw [show computeRequestHash Hsh [("content", c)] now
      = requestFingerprint Hsh c now from rfl]
    rw [hreq0, if_neg hfp]
  have hrep1 : (checkReplay Hsh (cleanupExpired cfg st now) [("content", c)] now).1
      = false := by rw [hrep]
  have hrepWin : (checkReplay Hsh (cleanupExpired cfg st now) [("content", c)] now).2.rate_windows
      = (cleanupExpired cfg st now).rate_windows := by rw [hrep]
  have hfilterR : ((checkReplay Hsh (cleanupExpired cfg st now) [("content", c)] now).2.rate_windows
        token).filter (fun ts => decide (ts > now - cfg.ttl_seconds))
      = List.replicate used.length now := by
    rw [hrepWin, hwin0]
    exact filter_replicate_keep hpnow
  have hfull : (List.replicate used.length now).length ≥ cfg.requests_per_minute := by
    simp only [List.length_replicate]
    omega
  have hrate1 : (checkRateLimit cfg
      (checkReplay Hsh (cleanupExpired cfg st now) [("content", c)] now).2 token now).1
      = true := by
    unfold checkRateLimit
    rw [hfilterR, if_pos hfull]
  unfold gate0_evaluate
  rw [hval]
  simp only [Bool.not_true, Bool.false_eq_true, if_false]
  rw [show ((some token).getD "") = token from rfl, hrep1, hrate1]
  simp

/-- N fresh pairwise-distinct requests all PASS from a characterized state. -/
lemma g0_run_pass (Hsh : String → String) (hinj : Function.Injective Hsh)
    (cfg : RateLimitConfig) (httl : 0 < cfg.ttl_seconds)
    (hrttl : 0 ≤ cfg.replay_ttl_seconds)
    (token : String) (htok : 8 ≤ token.length) (now : ℤ) :
    ∀ (cs : List String) (used : List String) (st : G0State),
      cs.Pairwise (· ≠ ·) →
      (∀ c' ∈ cs, c' ∉ used) →
      (∀ k, st.request_hashes k
        = if k ∈ used.map (fun u => requestFingerprint Hsh u now) then some now else none) →
      st.rate_windows token = List.replicate used.length now →
      (∀ s, s ≠ token → st.rate_windows s = []) →
      used.length + cs.length ≤ cfg.requests_per_minute →
      let res := g0RunSeq Hsh cfg (some token) now cs st
      res.1.map (fun o => o.result) = List.replicate cs.length GateResult.PASS
      ∧ (∀ k, res.2.request_hashes k
          = if k ∈ (used ++ cs).map (fun u => requestFingerprint Hsh u now)
            then some now else none)
      ∧ res.2.rate_windows token = List.replicate (used ++ cs).length now
      ∧ (∀ s, s ≠ token → res.2.rate_windows s = []) := by
  intro cs
  induction cs with
  | nil =>
    intro used st _ _ hreq hwin hwin' _
    exact ⟨rfl, by simpa using hreq, by simpa using hwin, by simpa using hwin'⟩
  | cons c cs ih =>
    intro used st hpw hfresh hreq hwin hwin' hbound
    have hstep := g0_eval_pass_step hinj httl hrttl htok c used st
      (hfresh c (by simp)) hreq hwin hwin'
      (by simp only [List.length_cons] at hbound; omega)
    obtain ⟨hout, hreq1, hwin1, hwin1'⟩ := hstep
    have hfresh1 : ∀ c' ∈ cs, c' ∉ used ++ [c] := by
      intro c' hc'
      simp only [List.mem_append, List.mem_singleton]
      push_neg
      refine ⟨fun hin => hfresh c' (List.mem_cons_of_mem _ hc') hin, ?_⟩
      intro he
      subst he
      exact absurd rfl ((List.pairwise_cons.mp hpw).1 c' hc')
  -- note: the pairwise head gives c ≠ c' for c' ∈ cs
    have hpw1 : cs.Pairwise (· ≠ ·) := (List.pairwise_cons.mp hpw).2
    have hbound1 : (used ++ [c]).length + cs.length ≤ cfg.requests_per_minute := by
      simp only [List.length_append, List.length_cons, List.length_nil] at *
      omega
    have hrec := ih (used ++ [c])
      (gate0_evaluate Hsh cfg st [("content", c)] (some token) now).2
      hpw1 hfresh1 hreq1 hwin1 hwin1' hbound1
    obtain ⟨hrec1, hrec2, hrec3, hrec4⟩ := hrec
    refine ⟨?_, ?_, ?_, ?_⟩
    · simp only [g0RunSeq, List.map_cons, hout, hrec1, List.length_cons]
      rw [List.replicate_succ]
    · intro k
      have := hrec2 k
      simpa [List.append_assoc] using this
    · have := hrec3
      simpa [List.append_assoc] using this
    · intro s hs
      have := hrec4 s hs
      simpa using this

lemma g0RunSeq_append (Hsh : String → String) (cfg : RateLimitConfig)
    (tok : Option String) (now : ℤ) :
    ∀ (cs1 cs2 : List String) (st : G0State),
      g0RunSeq Hsh cfg tok now (cs1 ++ cs2) st
        = ((g0RunSeq Hsh cfg tok now cs1 st).1
            ++ (g0RunSeq Hsh cfg tok now cs2 (g0RunSeq Hsh cfg tok now cs1 st).2).1,
           (g0RunSeq Hsh cfg tok now cs2 (g0RunSeq Hsh cfg tok now cs1 st).2).2) := by
  intro cs1
  induction cs1 with
  | nil => intro cs2 st; simp [g0RunSeq]
  | cons c1 cs1 ih =>
    intro cs2 st
    simp only [List.cons_append, g0RunSeq, List.append_eq]
    rw [ih]

/-- C7: with a ceiling of N requests per 60-second window, N+1 evaluate
calls with a valid session token and pairwise-distinct contents at one
instant yield N PASS results followed by RATE_LIMITED on the (N+1)-th. -/
theorem c7_rate_limit_boundary (Hsh : String → String)
    (hinj : Function.Injective Hsh) (N : ℕ) (cs : List String) (c : String)
    (token : String) (now : ℤ)
    (hlen : cs.length = N) (hdist : (cs ++ [c]).Pairwise (· ≠ ·))
    (htok : 8 ≤ token.length) :
    ((g0RunSeq Hsh { requests_per_minute := N } (some token) now (cs ++ [c]) g0Init).1.map
        (fun o => o.result))
      = List.replicate N GateResult.PASS ++ [GateResult.RATE_LIMITED] := by
  have httl : (0:ℤ) < ({ requests_per_minute := N } : RateLimitConfig).ttl_seconds := by
    show (0:ℤ) < 60
    norm_num
  have hrttl : (0:ℤ) ≤ ({ requests_per_minute := N } : RateLimitConfig).replay_ttl_seconds := by
    show (0:ℤ) ≤ 300
    norm_num
  rw [List.pairwise_append] at hdist
  obtain ⟨hpw, _, hcross⟩ := hdist
  have hcnotin : c ∉ cs := fun hin => hcross c hin c (by simp) rfl
  have hrun := g0_run_pass Hsh hinj { requests_per_minute := N } httl hrttl token htok now
    cs [] g0Init hpw (by simp) (by intro k; simp [g0Init]) (by simp [g0Init])
    (by intro s _; rfl) (by simp [hlen])
  obtain ⟨hmap1, hreq1, hwin1, hwin1'⟩ := hrun
  have hreq1' : ∀ k, (g0RunSeq Hsh { requests_per_minute := N } (some token) now cs
        g0Init).2.request_hashes k
      = if k ∈ cs.map (fun u => requestFingerprint Hsh u now) then some now else none := by
    intro k
    have := hreq1 k
    simpa using this
  have hwin1'' : (g0RunSeq Hsh { requests_per_minute := N } (some token) now cs
        g0Init).2.rate_windows token
      = List.replicate cs.length now := by
    have := hwin1
    simpa using this
  have hge : ({ requests_per_minute := N } : RateLimitConfig).requests_per_minute
      ≤ cs.length := by
    show N ≤ cs.length
    omega
  have hlast := g0_eval_limited_step hinj httl hrttl htok c cs
    (g0RunSeq Hsh { requests_per_minute := N } (some token) now cs g0Init).2
    hcnotin hreq1' hwin1'' hge
  rw [g0RunSeq_append]
  simp only [List.map_append]
  rw [hmap1, hlen]
  congr 1
  simp only [g0RunSeq, List.map_cons, List.map_nil]
  rw [hlast]

/-- C7 witness: ceiling 2, three distinct contents, one valid token. -/
theorem c7_rate_limit_boundary_witness :
    ((g0RunSeq wHid { requests_per_minute := 2 } (some "token123") 0
        (["a", "b"] ++ ["d"]) g0Init).1.map (fun o => o.result))
      = List.replicate 2 GateResult.PASS ++ [GateResult.RATE_LIMITED] :=
  c7_rate_limit_boundary wHid (fun _ _ h => h) 2 ["a", "b"] "d" "token123" 0
    (by decide) (by decide) (by decide)

/-! ### Gate 5 lemmas (claim C8) -/

lemma scoreSignals_zero (signals : List IntentSignal) (content : String)
    (h : ∀ sig ∈ signals, sig.matchFn content = false) :
    scoreSignals signals content = { } := by
  have general : ∀ (l : List IntentSignal) (init : Scores),
      (∀ sig ∈ l, sig.matchFn content = false) →
      l.foldl (fun sc sig => if sig.matchFn content then sc.add sig.mode sig.weight else sc)
        init = init := by
    intro l
    induction l with
    | nil => intro init _; rfl
    | cons sig l ih =>
      intro init hl
      simp only [List.foldl_cons, hl sig (by simp), Bool.false_eq_true, if_false]
      exact ih init (fun s hs => hl s (List.mem_cons_of_mem _ hs))
  exact general signals { } h

lemma gate5_classify_no_signal (signals : List IntentSignal) (content : String)
    (h : ∀ sig ∈ signals, sig.matchFn content = false) :
    gate5_classify signals content = (.TRANSACTIONAL, 3/10, { }) := by
  unfold gate5_classify
  rw [scoreSignals_zero signals content h]
  norm_num

lemma pyRound3_three_tenths : pyRound3 (3/10) = 3/10 := by
  unfold pyRound3
  norm_num

/-- C8 counterexample: on empty content `Gate5Intent.evaluate` reports
confidence 0.5 (a special case), not the claimed 0.3. -/
theorem c8_counterexample :
    reportedConfidence (gate5_evaluate wSignals [("content", "")] none) = some (1/2)
    ∧ ¬ ((1:ℚ)/2 = 3/10) := ⟨rfl, by norm_num⟩

/-- C8 (amended): `Gate5Intent.evaluate` returns PASS for every request;
for non-empty content matched by no intent signal it reports mode
TRANSACTIONAL with confidence 0.3; for empty content it short-circuits to
TRANSACTIONAL with confidence 0.5. -/
theorem c8_intent_default_amended :
    (∀ (signals : List IntentSignal) (request : List (String × String))
        (tok : Option String), (gate5_evaluate signals request tok).result = GateResult.PASS)
    ∧ (∀ (signals : List IntentSignal) (content : String) (tok : Option String),
        content ≠ "" → (∀ sig ∈ signals, sig.matchFn content = false) →
        reportedMode (gate5_evaluate signals [("content", content)] tok)
            = some "TRANSACTIONAL"
          ∧ reportedConfidence (gate5_evaluate signals [("content", content)] tok)
            = some (3/10))
    ∧ (∀ (signals : List IntentSignal) (tok : Option String),
        reportedMode (gate5_evaluate signals [("content", "")] tok) = some "TRANSACTIONAL"
          ∧ reportedConfidence (gate5_evaluate signals [("content", "")] tok)
            = some (1/2)) := by
  refine ⟨?_, ?_, ?_⟩
  · intro signals request tok
    unfold gate5_evaluate
    split <;> rfl
  · intro signals content tok hne hnosig
    have hcontent : reqContent [("content", content)] = content := rfl
    have hcl := gate5_classify_no_signal signals content hnosig
    have hmode : gate5AdjMode signals content = .TRANSACTIONAL := by
      unfold gate5AdjMode
      rw [hcl]
      simp
    have hconf : gate5AdjConf signals content = 3/10 := by
      unfold gate5AdjConf
      rw [hcl]
      simp
    constructor
    · show reportedMode (gate5_evaluate signals [("content", content)] tok) = _
      unfold gate5_evaluate
      rw [hcontent, if_neg hne, hmode]
      rfl
    · show reportedConfidence (gate5_evaluate signals [("content", content)] tok) = _
      unfold gate5_evaluate
      rw [hcontent, if_neg hne, hconf, pyRound3_three_tenths]
      rfl
  · intro signals tok
    exact ⟨rfl, rfl⟩

/-- C8 witness: the amended theorem at a one-signal list and unmatched
non-empty content. -/
theorem c8_intent_default_amended_witness :
    reportedMode (gate5_evaluate wSignals [("content", "zzz")] none) = some "TRANSACTIONAL"
    ∧ reportedConfidence (gate5_evaluate wSignals [("content", "zzz")] none)
        = some (3/10) :=
  c8_intent_default_amended.2.1 wSignals "zzz" none (by decide)
    (by
      intro sig hs
      simp only [wSignals, List.mem_singleton] at hs
      subst hs
      decide)

/-! ### Interceptor lemmas (claim C9) -/

/-- C9 counterexample: a second `capture_before` for the same path (after
the file appeared on disk, no intervening cleanup) replaces the tracked
state: the tracked `hash_before` changes from `NEW_FILE` to the hash of
the on-disk bytes. -/
theorem c9_counterexample :
    (((capture_before wHid fsEmpty interceptorInit "f").2).states "f").map
        (fun s => s.hash_before) = some (some "NEW_FILE")
    ∧ (((capture_before wHid (fsWrite "f" "x" fsEmpty)
          (capture_before wHid fsEmpty interceptorInit "f").2 "f").2).states "f").map
        (fun s => s.hash_before) = some (some "x")
    ∧ some (some "x") ≠ (some (some "NEW_FILE") : Option (Option String)) := by
  refine ⟨rfl, ?_, by decide⟩
  rfl

/-- C9 (amended): `capture_after` is idempotent per path — with tracked
state present it reuses it, leaving `hash_before` and `content_before`
unchanged and only refreshing `hash_after`; `capture_before` instead
re-snapshots the current file and replaces the tracked entry, so repeated
`capture_before` calls agree only while the filesystem is unchanged. -/
theorem c9_capture_amended :
    (∀ (H : String → String) (fs : FS) (ist : InterceptorState) (path : String)
        (st0 : FileState), ist.states path = some st0 →
      (capture_after H fs ist path).1.hash_before = st0.hash_before
      ∧ (capture_after H fs ist path).1.content_before = st0.content_before
      ∧ (capture_after H fs ist path).2.states path = some (capture_after H fs ist path).1)
    ∧ (∀ (H : String → String) (fs : FS) (ist : InterceptorState) (path : String),
      (capture_before H fs (capture_before H fs ist path).2 path).1
        = (capture_before H fs ist path).1)
    ∧ (∀ (H : String → String) (fs : FS) (ist : InterceptorState) (path : String),
      (capture_before H fs ist path).2.states path
        = some (capture_before H fs ist path).1) := by
  refine ⟨?_, ?_, ?_⟩
  · intro H fs ist path st0 h
    unfold capture_after
    rw [h]
    exact ⟨rfl, rfl, by simp⟩
  · intro H fs ist path
    rfl
  · intro H fs ist path
    cases hf : fs path <;> simp [capture_before, hf]

/-- C9 witness: the amended theorem applied to a fresh tracked path. -/
theorem c9_capture_amended_witness :
    ((capture_after wHid fsEmpty (capture_before wHid fsEmpty interceptorInit "f").2
        "f").1.hash_before = (capture_before wHid fsEmpty interceptorInit "f").1.hash_before)
    ∧ ((capture_before wHid fsEmpty (capture_before wHid fsEmpty interceptorInit "f").2
        "f").1 = (capture_before wHid fsEmpty interceptorInit "f").1) := by
  obtain ⟨h1, h2, h3⟩ := c9_capture_amended
  exact ⟨(h1 wHid fsEmpty _ "f" _ (h3 wHid fsEmpty interceptorInit "f")).1,
    h2 wHid fsEmpty interceptorInit "f"⟩

end MirrorGate
